import Mathlib

/-!
Verification of the terminal triangle renderer.

The Rust source is shallowly embedded: `Grid` becomes a structure over a
`List` backing store, the vector/matrix types become structures of scalars,
and the rasterizer's nested `for` loops become `List.foldl` over
`List.range'`.  Floating-point arithmetic is modelled two ways:

* exactly, by the rationals `ℚ` (resp. the reals `ℝ` where trigonometric
  functions are needed) — faithful on every execution path in which no
  overflow, rounding that changes a comparison, NaN or infinity occurs; and
* by `FExt`, rationals extended with `nan`/`inf`/`ninf` following the IEEE
  special-value rules with exact finite arithmetic — used to trace the
  executions in which the real program produces NaN.
-/

namespace TRend

/-! ## Grid (src/grid.rs) -/

/-- `Grid<T>` from src/grid.rs: a `Vec<T>` backing store plus dimensions. -/
structure Grid (α : Type) where
  data : List α
  width : Nat
  height : Nat
deriving Repr

namespace Grid

/-- `Grid::get` (src/grid.rs:12-15): reads `data[y*width + x]`, with the
`Vec::get` bounds check against the backing store only. -/
def get (g : Grid α) (x y : Nat) : Option α :=
  g.data[y * g.width + x]?

/-- `Grid::set` (src/grid.rs:17-25): rejects when the flat index or either
coordinate is out of range, otherwise overwrites and reports `true`. -/
def set (g : Grid α) (value : α) (x y : Nat) : Grid α × Bool :=
  let index := y * g.width + x
  if g.data.length ≤ index ∨ g.height ≤ y ∨ g.width ≤ x then
    (g, false)
  else
    ({ g with data := g.data.set index value }, true)

/-- `Grid::clear` (src/grid.rs:27-36): `set` every `(x, y)` with
`y in 0..height`, `x in 0..width`. -/
def clear (g : Grid α) (value : α) : Grid α :=
  (List.range g.height).foldl
    (fun gy y => (List.range gy.width).foldl (fun gx x => (gx.set value x y).1) gy)
    g

/-- `Grid::new` (src/grid.rs:40-46). -/
def new (fill_value : α) (width height : Nat) : Grid α :=
  { data := List.replicate (width * height) fill_value, width := width, height := height }

/-- Well-formedness maintained by `Grid::new`: the backing store has exactly
`width * height` elements (the `data` field is private in the source, so every
grid a client can build satisfies this). -/
def WF (g : Grid α) : Prop :=
  g.data.length = g.width * g.height

theorem wf_new (fill : α) (w h : Nat) : (new fill w h).WF := by
  simp [WF, new]

theorem get_new (fill : α) (w h x y : Nat) (hx : x < w) (hy : y < h) :
    (new fill w h).get x y = some fill := by
  have hidx : y * w + x < w * h := by
    calc y * w + x < y * w + w := by omega
    _ = (y + 1) * w := by ring
    _ ≤ h * w := Nat.mul_le_mul_right w hy
    _ = w * h := Nat.mul_comm h w
  simp [get, new, List.getElem?_replicate, hidx]

theorem index_lt (w h x y : Nat) (hx : x < w) (hy : y < h) :
    y * w + x < w * h := by
  calc y * w + x < y * w + w := by omega
  _ = (y + 1) * w := by ring
  _ ≤ h * w := Nat.mul_le_mul_right w hy
  _ = w * h := Nat.mul_comm h w

theorem set_of_ge (g : Grid α) (v : α) (x y : Nat) (h : g.width ≤ x ∨ g.height ≤ y) :
    g.set v x y = (g, false) := by
  unfold set
  rcases h with h | h <;> simp [h]

theorem set_of_len_le (g : Grid α) (v : α) (x y : Nat)
    (h : g.data.length ≤ y * g.width + x) : g.set v x y = (g, false) := by
  unfold set
  simp [h]

theorem set_dims (g : Grid α) (v : α) (x y : Nat) :
    ((g.set v x y).1.width = g.width ∧ (g.set v x y).1.height = g.height) ∧
      (g.set v x y).1.data.length = g.data.length := by
  unfold set
  by_cases hc : g.data.length ≤ y * g.width + x ∨ g.height ≤ y ∨ g.width ≤ x <;>
    simp [hc]

theorem wf_set (g : Grid α) (v : α) (x y : Nat) (h : g.WF) : (g.set v x y).1.WF := by
  have hd := set_dims g v x y
  unfold WF at h ⊢
  rw [hd.2, hd.1.1, hd.1.2, h]

/-- In-range `set` succeeds and updates exactly the flat index. -/
theorem set_of_lt (g : Grid α) (v : α) (x y : Nat) (hwf : g.WF)
    (hx : x < g.width) (hy : y < g.height) :
    g.set v x y = ({ g with data := g.data.set (y * g.width + x) v }, true) := by
  have hidx : y * g.width + x < g.data.length := by
    rw [hwf]; exact index_lt _ _ _ _ hx hy
  unfold set
  simp [Nat.not_le.mpr hidx, Nat.not_le.mpr hx, Nat.not_le.mpr hy]

theorem get_set_self (g : Grid α) (v : α) (x y : Nat) (hwf : g.WF)
    (hx : x < g.width) (hy : y < g.height) :
    (g.set v x y).1.get x y = some v := by
  have hidx : y * g.width + x < g.data.length := by
    rw [hwf]; exact index_lt _ _ _ _ hx hy
  rw [set_of_lt g v x y hwf hx hy]
  simp [get, List.getElem?_set_self, hidx]

/-- A `set` never changes any cell other than the one at its own flat index
(whether it succeeds or fails). -/
theorem get_set_other (g : Grid α) (v : α) (x y x' y' : Nat)
    (hne : y' * g.width + x' ≠ y * g.width + x) :
    (g.set v x y).1.get x' y' = g.get x' y' := by
  unfold set
  by_cases hc : g.data.length ≤ y * g.width + x ∨ g.height ≤ y ∨ g.width ≤ x
  · simp [hc]
  · simp only [hc, if_false]
    simp [get, List.getElem?_set_ne (fun h => hne h.symm)]

/-- Distinct in-range cells have distinct flat indices. -/
theorem index_inj (w x y x' y' : Nat) (hx : x < w) (hx' : x' < w)
    (hne : ¬(x' = x ∧ y' = y)) : y' * w + x' ≠ y * w + x := by
  intro h
  rcases Nat.lt_trichotomy y' y with hlt | heq | hgt
  · have : y' * w + x' < y * w + x := by
      calc y' * w + x' < y' * w + w := by omega
      _ = (y' + 1) * w := by ring
      _ ≤ y * w := Nat.mul_le_mul_right w hlt
      _ ≤ y * w + x := Nat.le_add_right _ _
    omega
  · subst heq; omega
  · have : y * w + x < y' * w + x' := by
      calc y * w + x < y * w + w := by omega
      _ = (y + 1) * w := by ring
      _ ≤ y' * w := Nat.mul_le_mul_right w hgt
      _ ≤ y' * w + x' := Nat.le_add_right _ _
    omega

end Grid

/-! ## Vectors (src/vector/vector3.rs, src/vector/vector4.rs)

The scalar type is a parameter: `ℚ` (exact model), `FExt` (IEEE special
values), or `ℝ` (for the trigonometric builders). -/

variable {α : Type}

/-- `Vector3` from src/vector/vector3.rs. -/
@[ext]
structure Vector3 (α : Type) where
  x : α
  y : α
  z : α
deriving Repr, DecidableEq

/-- `Vector4` from src/vector/vector4.rs. -/
@[ext]
structure Vector4 (α : Type) where
  x : α
  y : α
  z : α
  w : α
deriving Repr, DecidableEq

/-- `impl Add<Vector3> for Vector3` (vector3.rs:55-61), operand order as in
the source (`other.x + self.x`, …). -/
instance [Add α] : Add (Vector3 α) :=
  ⟨fun self other => ⟨other.x + self.x, other.y + self.y, other.z + self.z⟩⟩

/-- `impl Sub<Vector3> for Vector3` (vector3.rs:64-70). -/
instance [Sub α] : Sub (Vector3 α) :=
  ⟨fun self other => ⟨self.x - other.x, self.y - other.y, self.z - other.z⟩⟩

/-- `impl Neg for Vector3` (vector3.rs:141-147). -/
instance [Neg α] : Neg (Vector3 α) :=
  ⟨fun v => ⟨-v.x, -v.y, -v.z⟩⟩

/-- `impl Add<f32> for Vector3` (vector3.rs:73-78): `v + s`. -/
instance [Add α] : HAdd (Vector3 α) α (Vector3 α) :=
  ⟨fun v s => ⟨s + v.x, s + v.y, s + v.z⟩⟩

/-- `impl Add<Vector3> for f32` (vector3.rs:80-85): `s + v`.  The third
component is `self + vec.y` in the source — translated verbatim. -/
instance [Add α] : HAdd α (Vector3 α) (Vector3 α) :=
  ⟨fun s v => ⟨s + v.x, s + v.y, s + v.y⟩⟩

/-- `impl Mul<f32> for Vector3` (vector3.rs:112-117): `v * s`. -/
instance [Mul α] : HMul (Vector3 α) α (Vector3 α) :=
  ⟨fun v s => ⟨s * v.x, s * v.y, s * v.z⟩⟩

/-- `impl Mul<Vector3> for f32` (vector3.rs:119-124): `s * v`. -/
instance [Mul α] : HMul α (Vector3 α) (Vector3 α) :=
  ⟨fun s v => ⟨s * v.x, s * v.y, s * v.z⟩⟩

/-- `impl Div<Vector3> for f32` (vector3.rs:134-139): componentwise `s / v`. -/
instance [Div α] : HDiv α (Vector3 α) (Vector3 α) :=
  ⟨fun s v => ⟨s / v.x, s / v.y, s / v.z⟩⟩

/-- `Vector3::dot` (vector3.rs:49-51). -/
def Vector3.dot [Add α] [Mul α] (self other : Vector3 α) : α :=
  self.x * other.x + self.y * other.y + self.z * other.z

/-- `Vector3::cross` (vector3.rs:28-34). -/
def Vector3.cross [Sub α] [Mul α] (self other : Vector3 α) : Vector3 α :=
  ⟨self.y * other.z - self.z * other.y,
   self.z * other.x - self.x * other.z,
   self.x * other.y - self.y * other.x⟩

/-- `impl Add<Vector4> for Vector4` (vector4.rs:65-76), source operand order. -/
instance [Add α] : Add (Vector4 α) :=
  ⟨fun self other =>
    ⟨other.x + self.x, other.y + self.y, other.z + self.z, other.w + self.w⟩⟩

/-- `impl Neg for Vector4` (vector4.rs:176-182). -/
instance [Neg α] : Neg (Vector4 α) :=
  ⟨fun v => ⟨-v.x, -v.y, -v.z, -v.w⟩⟩

/-- `impl Mul<Vector4> for f32` (vector4.rs:154-159): `s * v`. -/
instance [Mul α] : HMul α (Vector4 α) (Vector4 α) :=
  ⟨fun s v => ⟨s * v.x, s * v.y, s * v.z, s * v.w⟩⟩

/-- `Vector4::from_vector3` (vector4.rs:38-41). -/
def Vector4.from_vector3 (v : Vector3 α) (w : α) : Vector4 α :=
  ⟨v.x, v.y, v.z, w⟩

/-- `Vector4::to_homogeneous` (vector4.rs:34-36). -/
def Vector4.to_homogeneous [One α] (v : Vector3 α) : Vector4 α :=
  Vector4.from_vector3 v 1

/-! ## Scalar model of f32

`FltOps` packages the partial-order and conversion operations of `f32` whose
IEEE behaviour (`NaN` incomparable, saturating casts) is not that of a plain
ordered field.  `blt a b` is `a < b`, `bge a b` is `a >= b`. -/

class FltOps (α : Type) where
  blt : α → α → Bool
  bge : α → α → Bool
  fmin : α → α → α
  fmax : α → α → α
  toUsize : α → Nat
  ofNat : Nat → α

/-- Exact model: `ℚ` with its total order.  Faithful to `f32` whenever no
NaN/infinity arises and no rounding flips a comparison.  `toUsize` is the
`as usize` cast: truncation toward zero, saturating at 0 from below. -/
instance : FltOps ℚ where
  blt a b := decide (a < b)
  bge a b := decide (b ≤ a)
  fmin a b := min a b
  fmax a b := max a b
  toUsize q := (⌊q⌋).toNat
  ofNat n := (n : ℚ)

theorem ratBge (a b : ℚ) : FltOps.bge a b = decide (b ≤ a) := rfl

theorem ratBlt (a b : ℚ) : FltOps.blt a b = decide (a < b) := rfl

theorem ratOfNat (n : Nat) : (FltOps.ofNat n : ℚ) = (n : ℚ) := rfl

/-- IEEE-style extension of `ℚ` with `nan` and the two infinities; finite
arithmetic is exact.  Faithful to `f32` on traces whose finite operations are
exactly representable (negative zero never arises on such traces in this
program). -/
inductive FExt where
  | fin (q : ℚ)
  | nan
  | inf
  | ninf
deriving Repr, DecidableEq

namespace FExt

def add : FExt → FExt → FExt
  | nan, _ => nan
  | _, nan => nan
  | inf, ninf => nan
  | ninf, inf => nan
  | inf, _ => inf
  | _, inf => inf
  | ninf, _ => ninf
  | _, ninf => ninf
  | fin a, fin b => fin (a + b)

def neg : FExt → FExt
  | fin q => fin (-q)
  | nan => nan
  | inf => ninf
  | ninf => inf

def sub (a b : FExt) : FExt := add a (neg b)

def mul : FExt → FExt → FExt
  | nan, _ => nan
  | _, nan => nan
  | fin a, fin b => fin (a * b)
  | inf, fin b => if b = 0 then nan else if 0 < b then inf else ninf
  | fin a, inf => if a = 0 then nan else if 0 < a then inf else ninf
  | ninf, fin b => if b = 0 then nan else if 0 < b then ninf else inf
  | fin a, ninf => if a = 0 then nan else if 0 < a then ninf else inf
  | inf, inf => inf
  | inf, ninf => ninf
  | ninf, inf => ninf
  | ninf, ninf => inf

def div : FExt → FExt → FExt
  | nan, _ => nan
  | _, nan => nan
  | fin a, fin b =>
      if b = 0 then (if a = 0 then nan else if 0 < a then inf else ninf)
      else fin (a / b)
  | fin _, inf => fin 0
  | fin _, ninf => fin 0
  | inf, fin b => if 0 ≤ b then inf else ninf
  | ninf, fin b => if 0 ≤ b then ninf else inf
  | inf, inf => nan
  | inf, ninf => nan
  | ninf, inf => nan
  | ninf, ninf => nan

/-- IEEE `<`: false whenever either operand is NaN. -/
def blt : FExt → FExt → Bool
  | nan, _ => false
  | _, nan => false
  | fin a, fin b => decide (a < b)
  | fin _, inf => true
  | fin _, ninf => false
  | inf, _ => false
  | ninf, ninf => false
  | ninf, _ => true

/-- IEEE `>=`: false whenever either operand is NaN. -/
def bge : FExt → FExt → Bool
  | nan, _ => false
  | _, nan => false
  | fin a, fin b => decide (b ≤ a)
  | fin _, inf => false
  | fin _, ninf => true
  | inf, _ => true
  | ninf, ninf => true
  | ninf, _ => false

/-- `f32::min`: returns the other operand when one is NaN. -/
def fmin (a b : FExt) : FExt :=
  match a, b with
  | nan, b => b
  | a, nan => a
  | a, b => if blt b a then b else a

/-- `f32::max`: returns the other operand when one is NaN. -/
def fmax (a b : FExt) : FExt :=
  match a, b with
  | nan, b => b
  | a, nan => a
  | a, b => if blt a b then b else a

/-- `as usize`: truncation toward zero, saturating at 0 and `usize::MAX`;
NaN casts to 0.  For nonnegative finite values truncation equals the floor,
and negative ones saturate to 0 just as `Int.toNat` does. -/
def toUsize : FExt → Nat
  | fin q => (⌊q⌋).toNat
  | nan => 0
  | inf => 2 ^ 64 - 1
  | ninf => 0

instance : Add FExt := ⟨add⟩
instance : Sub FExt := ⟨sub⟩
instance : Mul FExt := ⟨mul⟩
instance : Div FExt := ⟨div⟩
instance : Neg FExt := ⟨neg⟩

instance : FltOps FExt where
  blt := blt
  bge := bge
  fmin := fmin
  fmax := fmax
  toUsize := toUsize
  ofNat n := fin n

end FExt

/-! ## Rasterizer (src/main.rs) -/

/-- `WIDTH` (main.rs:19). -/
def WIDTH : Nat := 200

/-- `HEIGHT` (main.rs:20). -/
def HEIGHT : Nat := 100

/-- `Triangle` (main.rs:22-26). -/
structure Triangle (α : Type) where
  a : Vector3 α
  b : Vector3 α
  c : Vector3 α

section Raster

variable [Add α] [Sub α] [Mul α] [Div α] [Neg α] [FltOps α]

/-- `edge_function` (main.rs:61-76). -/
def edge_function (a b c : Vector3 α) : α :=
  let ac := c - a
  let ab := a - b
  let ab_perp : Vector3 α := ⟨ab.y, -ab.x, ab.z⟩
  ac.dot ab_perp

/-- `Triangle::get_bounding_box` (main.rs:29-42).  `usize::clamp(v, 0, N)` on
a `Nat` is `min v N` (the lower clamp is vacuous). -/
def Triangle.get_bounding_box (t : Triangle α) : Nat × Nat × Nat × Nat :=
  let min_x := FltOps.fmin t.a.x (FltOps.fmin t.b.x t.c.x)
  let min_y := FltOps.fmin t.a.y (FltOps.fmin t.b.y t.c.y)
  let max_x := FltOps.fmax t.a.x (FltOps.fmax t.b.x t.c.x)
  let max_y := FltOps.fmax t.a.y (FltOps.fmax t.b.y t.c.y)
  (Nat.min (FltOps.toUsize min_x) WIDTH, Nat.min (FltOps.toUsize min_y) HEIGHT,
   Nat.min (FltOps.toUsize max_x) WIDTH, Nat.min (FltOps.toUsize max_y) HEIGHT)

/-- The containment test of the per-pixel loop (main.rs:111-116): the three
edge values at pixel center `p = (x, y, 0)` must agree in `>= 0` sign. -/
def insideTest (a b c : Vector3 α) (x y : Nat) : Bool :=
  let p : Vector3 α := ⟨FltOps.ofNat x, FltOps.ofNat y, FltOps.ofNat 0⟩
  let abp := edge_function a b p
  let bcp := edge_function b c p
  let cap := edge_function c a p
  (FltOps.bge abp (FltOps.ofNat 0) == FltOps.bge bcp (FltOps.ofNat 0)) &&
    (FltOps.bge bcp (FltOps.ofNat 0) == FltOps.bge cap (FltOps.ofNat 0))

/-- The perspective-correct interpolated depth of the per-pixel loop
(main.rs:122-132): inverse vertex depths combined with barycentric weights
`edge/abc`, then inverted. -/
def pixelDepth (a b c : Vector3 α) (abc : α) (x y : Nat) : α :=
  let p : Vector3 α := ⟨FltOps.ofNat x, FltOps.ofNat y, FltOps.ofNat 0⟩
  let abp := edge_function a b p
  let bcp := edge_function b c p
  let cap := edge_function c a p
  let depths : Vector3 α := (FltOps.ofNat 1 : α) / (⟨a.z, b.z, c.z⟩ : Vector3 α)
  let weights : Vector3 α := ⟨abp / abc, bcp / abc, cap / abc⟩
  FltOps.ofNat 1 / depths.dot weights

/-- Body of the per-pixel loop of `rasterize_triangle` (main.rs:111-138):
containment test, perspective-correct depth, depth test, buffer writes.
`abc` is the doubled signed area computed once outside the loop. -/
def rasterPixel (a b c : Vector3 α) (abc : α) (value : Char)
    (st : Grid Char × Grid α) (x y : Nat) : Grid Char × Grid α :=
  if !insideTest a b c x y then st
  else
    let depth := pixelDepth a b c abc x y
    if (match st.2.get x y with
        | some prev => FltOps.bge depth prev
        | none => false) then st
    else
      ((st.1.set value x y).1, (st.2.set depth x y).1)

/-- The whole-triangle z-range reject (main.rs:100-103).  `a > b` on f32 is
`b < a`. -/
def zReject (t : Triangle α) : Bool :=
  FltOps.blt t.a.z (FltOps.ofNat 0) || FltOps.blt t.b.z (FltOps.ofNat 0) ||
    FltOps.blt t.c.z (FltOps.ofNat 0) || FltOps.blt (FltOps.ofNat 1) t.a.z ||
    FltOps.blt (FltOps.ofNat 1) t.b.z || FltOps.blt (FltOps.ofNat 1) t.c.z

/-- `rasterize_triangle` (main.rs:97-141): z-range reject, then the nested
`for y in min_y..max_y { for x in min_x..max_x { … } }` as folds over
`List.range'`. -/
def rasterize_triangle (t : Triangle α) (grid : Grid Char) (depth_buffer : Grid α)
    (value : Char) : Grid Char × Grid α :=
  if zReject t then
    (grid, depth_buffer)
  else
    match t.get_bounding_box with
    | (min_x, min_y, max_x, max_y) =>
      let abc := edge_function t.a t.b t.c
      (List.range' min_y (max_y - min_y)).foldl
        (fun st y =>
          (List.range' min_x (max_x - min_x)).foldl
            (fun st x => rasterPixel t.a t.b t.c abc value st x y) st)
        (grid, depth_buffer)

/-- Specification-level summary of what one frame of `rasterize_triangle`
computes for pixel `(x, y)`: `some d` when the pixel is reached (triangle not
z-rejected, `(x, y)` inside the clamped bounding box and inside the triangle)
with `d` the interpolated depth, `none` otherwise.  Proven to characterize
`rasterize_triangle` in `rasterize_triangle_get`. -/
def candidate (t : Triangle α) (x y : Nat) : Option α :=
  match t.get_bounding_box with
  | (min_x, min_y, max_x, max_y) =>
    if zReject t = false ∧ min_x ≤ x ∧ x < max_x ∧ min_y ≤ y ∧ y < max_y ∧
        insideTest t.a t.b t.c x y = true then
      some (pixelDepth t.a t.b t.c (edge_function t.a t.b t.c) x y)
    else
      none

end Raster

/-! ## Pixel-level characterization of the rasterizer

The nested loops visit each `(x, y)` at most once and the loop body touches
only the cell it is visiting, so the final contents of any valid cell are a
function of the triangle and that cell's initial contents alone. -/

section RasterLemmas

variable [Add α] [Sub α] [Mul α] [Div α] [Neg α] [FltOps α]

theorem rasterPixel_dims (a b c : Vector3 α) (abc : α) (v : Char)
    (st : Grid Char × Grid α) (x₀ y₀ : Nat) :
    ((rasterPixel a b c abc v st x₀ y₀).1.width = st.1.width ∧
      (rasterPixel a b c abc v st x₀ y₀).1.height = st.1.height ∧
      (rasterPixel a b c abc v st x₀ y₀).1.data.length = st.1.data.length) ∧
    ((rasterPixel a b c abc v st x₀ y₀).2.width = st.2.width ∧
      (rasterPixel a b c abc v st x₀ y₀).2.height = st.2.height ∧
      (rasterPixel a b c abc v st x₀ y₀).2.data.length = st.2.data.length) := by
  have h1 := Grid.set_dims st.1 v x₀ y₀
  have h2 := Grid.set_dims st.2 (pixelDepth a b c abc x₀ y₀) x₀ y₀
  unfold rasterPixel
  cases hins : insideTest a b c x₀ y₀
  · simp
  · cases hget : st.2.get x₀ y₀ with
    | none =>
      simp only [hins, hget, Bool.not_true, Bool.false_eq_true, if_false]
      exact ⟨⟨h1.1.1, h1.1.2, h1.2⟩, ⟨h2.1.1, h2.1.2, h2.2⟩⟩
    | some prev =>
      cases hbge : FltOps.bge (pixelDepth a b c abc x₀ y₀) prev
      · simp only [hins, hget, hbge, Bool.not_true, Bool.false_eq_true, if_false]
        exact ⟨⟨h1.1.1, h1.1.2, h1.2⟩, ⟨h2.1.1, h2.1.2, h2.2⟩⟩
      · simp [hins, hget, hbge]

/-- The loop body at pixel `(x₀, y₀)` never changes any other valid cell. -/
theorem rasterPixel_get_other (a b c : Vector3 α) (abc : α) (v : Char)
    (st : Grid Char × Grid α) (x₀ y₀ x y : Nat)
    (hx1 : x < st.1.width) (hy1 : y < st.1.height)
    (hx2 : x < st.2.width) (hy2 : y < st.2.height)
    (hne : ¬(x = x₀ ∧ y = y₀)) :
    (rasterPixel a b c abc v st x₀ y₀).1.get x y = st.1.get x y ∧
      (rasterPixel a b c abc v st x₀ y₀).2.get x y = st.2.get x y := by
  have key : ∀ (β : Type) (g : Grid β) (w : β), x < g.width → y < g.height →
      (g.set w x₀ y₀).1.get x y = g.get x y := by
    intro β g w hx hy
    by_cases hv : x₀ < g.width
    · exact Grid.get_set_other g w x₀ y₀ x y
        (Grid.index_inj g.width x₀ y₀ x y hv hx hne)
    · rw [Grid.set_of_ge g w x₀ y₀ (Or.inl (Nat.le_of_not_lt hv))]
  unfold rasterPixel
  cases hins : insideTest a b c x₀ y₀
  · simp
  · cases hget : st.2.get x₀ y₀ with
    | none =>
      simp only [hins, hget, Bool.not_true, Bool.false_eq_true, if_false]
      exact ⟨key Char st.1 v hx1 hy1, key α st.2 _ hx2 hy2⟩
    | some prev =>
      cases hbge : FltOps.bge (pixelDepth a b c abc x₀ y₀) prev
      · simp only [hins, hget, hbge, Bool.not_true, Bool.false_eq_true, if_false]
        exact ⟨key Char st.1 v hx1 hy1, key α st.2 _ hx2 hy2⟩
      · simp [hins, hget, hbge]

/-- The loop body at its own (valid) pixel: skip unless the containment test
passes and the depth test (`new >= stored` skips) fails; otherwise write. -/
theorem rasterPixel_get_self (a b c : Vector3 α) (abc : α) (v : Char)
    (st : Grid Char × Grid α) (x y : Nat)
    (hwf1 : st.1.WF) (hwf2 : st.2.WF)
    (hx1 : x < st.1.width) (hy1 : y < st.1.height)
    (hx2 : x < st.2.width) (hy2 : y < st.2.height)
    (prev : α) (hprev : st.2.get x y = some prev) :
    ((rasterPixel a b c abc v st x y).1.get x y,
      (rasterPixel a b c abc v st x y).2.get x y) =
    if insideTest a b c x y = true ∧
        FltOps.bge (pixelDepth a b c abc x y) prev = false then
      (some v, some (pixelDepth a b c abc x y))
    else
      (st.1.get x y, some prev) := by
  unfold rasterPixel
  cases hins : insideTest a b c x y
  · simp [hprev]
  · cases hbge : FltOps.bge (pixelDepth a b c abc x y) prev
    · simp only [hins, hprev, hbge, Bool.not_true, Bool.false_eq_true, if_false,
        true_and, if_true]
      rw [Grid.get_set_self st.1 v x y hwf1 hx1 hy1,
        Grid.get_set_self st.2 _ x y hwf2 hx2 hy2]
    · simp [hins, hprev, hbge]

/-- Dimension data of a grid, packaged for transport along the loops. -/
def gdims (g : Grid β) : Nat × Nat × Nat :=
  (g.width, g.height, g.data.length)

theorem gdims_spec {β : Type} {g g' : Grid β} (h : gdims g' = gdims g) :
    g'.width = g.width ∧ g'.height = g.height ∧ g'.data.length = g.data.length := by
  simpa [gdims, Prod.ext_iff] using h

theorem wf_of_gdims_eq {β : Type} {g g' : Grid β} (h : gdims g' = gdims g)
    (hwf : g.WF) : g'.WF := by
  obtain ⟨h1, h2, h3⟩ := gdims_spec h
  unfold Grid.WF at hwf ⊢
  rw [h1, h2, h3, hwf]

theorem rasterPixel_gdims (a b c : Vector3 α) (abc : α) (v : Char)
    (st : Grid Char × Grid α) (x₀ y₀ : Nat) :
    gdims (rasterPixel a b c abc v st x₀ y₀).1 = gdims st.1 ∧
      gdims (rasterPixel a b c abc v st x₀ y₀).2 = gdims st.2 := by
  have h := rasterPixel_dims a b c abc v st x₀ y₀
  constructor
  · simp [gdims, h.1.1, h.1.2.1, h.1.2.2]
  · simp [gdims, h.2.1, h.2.2.1, h.2.2.2]

section FoldLemmas

variable (a b c : Vector3 α) (abc : α) (v : Char) (y₀ : Nat)

theorem innerFold_gdims (xs : List Nat) (st : Grid Char × Grid α) :
    gdims (xs.foldl (fun st x => rasterPixel a b c abc v st x y₀) st).1 = gdims st.1 ∧
      gdims (xs.foldl (fun st x => rasterPixel a b c abc v st x y₀) st).2 = gdims st.2 := by
  induction xs generalizing st with
  | nil => exact ⟨rfl, rfl⟩
  | cons x₁ rest ih =>
    simp only [List.foldl_cons]
    have h := rasterPixel_gdims a b c abc v st x₁ y₀
    have h' := ih (rasterPixel a b c abc v st x₁ y₀)
    exact ⟨h'.1.trans h.1, h'.2.trans h.2⟩

theorem innerFold_get_other (xs : List Nat) (st : Grid Char × Grid α) (x y : Nat)
    (hx1 : x < st.1.width) (hy1 : y < st.1.height)
    (hx2 : x < st.2.width) (hy2 : y < st.2.height)
    (hmem : y ≠ y₀ ∨ x ∉ xs) :
    (xs.foldl (fun st x => rasterPixel a b c abc v st x y₀) st).1.get x y = st.1.get x y ∧
      (xs.foldl (fun st x => rasterPixel a b c abc v st x y₀) st).2.get x y =
        st.2.get x y := by
  induction xs generalizing st with
  | nil => exact ⟨rfl, rfl⟩
  | cons x₁ rest ih =>
    simp only [List.foldl_cons]
    have hne : ¬(x = x₁ ∧ y = y₀) := by
      rcases hmem with h | h
      · exact fun hc => h hc.2
      · exact fun hc => h (by simp [hc.1])
    have hstep := rasterPixel_get_other a b c abc v st x₁ y₀ x y hx1 hy1 hx2 hy2 hne
    have hg := rasterPixel_gdims a b c abc v st x₁ y₀
    obtain ⟨hw1, hh1, _⟩ := gdims_spec hg.1
    obtain ⟨hw2, hh2, _⟩ := gdims_spec hg.2
    have hmem' : y ≠ y₀ ∨ x ∉ rest := by
      rcases hmem with h | h
      · exact Or.inl h
      · exact Or.inr (fun hc => h (List.mem_cons_of_mem x₁ hc))
    have h' := ih (rasterPixel a b c abc v st x₁ y₀)
      (hw1 ▸ hx1) (hh1 ▸ hy1) (hw2 ▸ hx2) (hh2 ▸ hy2) hmem'
    exact ⟨h'.1.trans hstep.1, h'.2.trans hstep.2⟩

theorem innerFold_get_self (xs : List Nat) (st : Grid Char × Grid α) (x : Nat)
    (hnd : xs.Nodup) (hx : x ∈ xs)
    (hwf1 : st.1.WF) (hwf2 : st.2.WF)
    (hx1 : x < st.1.width) (hy1 : y₀ < st.1.height)
    (hx2 : x < st.2.width) (hy2 : y₀ < st.2.height)
    (prev : α) (hprev : st.2.get x y₀ = some prev) :
    ((xs.foldl (fun st x => rasterPixel a b c abc v st x y₀) st).1.get x y₀,
      (xs.foldl (fun st x => rasterPixel a b c abc v st x y₀) st).2.get x y₀) =
    if insideTest a b c x y₀ = true ∧
        FltOps.bge (pixelDepth a b c abc x y₀) prev = false then
      (some v, some (pixelDepth a b c abc x y₀))
    else
      (st.1.get x y₀, some prev) := by
  induction xs generalizing st with
  | nil => cases hx
  | cons x₁ rest ih =>
    simp only [List.foldl_cons]
    have hg := rasterPixel_gdims a b c abc v st x₁ y₀
    obtain ⟨hw1, hh1, _⟩ := gdims_spec hg.1
    obtain ⟨hw2, hh2, _⟩ := gdims_spec hg.2
    by_cases hx₁ : x = x₁
    · subst hx₁
      have hnotrest : x ∉ rest := (List.nodup_cons.mp hnd).1
      have hrest := innerFold_get_other a b c abc v y₀ rest
        (rasterPixel a b c abc v st x y₀) x y₀
        (hw1 ▸ hx1) (hh1 ▸ hy1) (hw2 ▸ hx2) (hh2 ▸ hy2) (Or.inr hnotrest)
      rw [hrest.1, hrest.2]
      exact rasterPixel_get_self a b c abc v st x y₀ hwf1 hwf2 hx1 hy1 hx2 hy2 prev hprev
    · have hxrest : x ∈ rest := by
        rcases List.mem_cons.mp hx with h | h
        · exact absurd h hx₁
        · exact h
      have hstep := rasterPixel_get_other a b c abc v st x₁ y₀ x y₀ hx1 hy1 hx2 hy2
        (fun hc => hx₁ hc.1)
      have h' := ih (rasterPixel a b c abc v st x₁ y₀) (List.nodup_cons.mp hnd).2 hxrest
        (wf_of_gdims_eq hg.1 hwf1) (wf_of_gdims_eq hg.2 hwf2)
        (hw1 ▸ hx1) (hh1 ▸ hy1) (hw2 ▸ hx2) (hh2 ▸ hy2)
        (hstep.2.trans hprev)
      rw [h', hstep.1]

end FoldLemmas

section OuterFoldLemmas

variable (a b c : Vector3 α) (abc : α) (v : Char) (xs : List Nat)

theorem outerFold_gdims (ys : List Nat) (st : Grid Char × Grid α) :
    gdims ((ys.foldl
        (fun st y => xs.foldl (fun st x => rasterPixel a b c abc v st x y) st) st)).1 =
      gdims st.1 ∧
    gdims ((ys.foldl
        (fun st y => xs.foldl (fun st x => rasterPixel a b c abc v st x y) st) st)).2 =
      gdims st.2 := by
  induction ys generalizing st with
  | nil => exact ⟨rfl, rfl⟩
  | cons y₁ rest ih =>
    simp only [List.foldl_cons]
    have h := innerFold_gdims a b c abc v y₁ xs st
    have h' := ih (xs.foldl (fun st x => rasterPixel a b c abc v st x y₁) st)
    exact ⟨h'.1.trans h.1, h'.2.trans h.2⟩

theorem outerFold_get_other (ys : List Nat) (st : Grid Char × Grid α) (x y : Nat)
    (hx1 : x < st.1.width) (hy1 : y < st.1.height)
    (hx2 : x < st.2.width) (hy2 : y < st.2.height)
    (hmem : y ∉ ys ∨ x ∉ xs) :
    ((ys.foldl
        (fun st y => xs.foldl (fun st x => rasterPixel a b c abc v st x y) st) st)).1.get
        x y = st.1.get x y ∧
    ((ys.foldl
        (fun st y => xs.foldl (fun st x => rasterPixel a b c abc v st x y) st) st)).2.get
        x y = st.2.get x y := by
  induction ys generalizing st with
  | nil => exact ⟨rfl, rfl⟩
  | cons y₁ rest ih =>
    simp only [List.foldl_cons]
    have hrow : y ≠ y₁ ∨ x ∉ xs := by
      rcases hmem with h | h
      · exact Or.inl (fun hc => h (by simp [hc]))
      · exact Or.inr h
    have hstep := innerFold_get_other a b c abc v y₁ xs st x y hx1 hy1 hx2 hy2 hrow
    have hg := innerFold_gdims a b c abc v y₁ xs st
    obtain ⟨hw1, hh1, _⟩ := gdims_spec hg.1
    obtain ⟨hw2, hh2, _⟩ := gdims_spec hg.2
    have hmem' : y ∉ rest ∨ x ∉ xs := by
      rcases hmem with h | h
      · exact Or.inl (fun hc => h (List.mem_cons_of_mem y₁ hc))
      · exact Or.inr h
    have h' := ih (xs.foldl (fun st x => rasterPixel a b c abc v st x y₁) st)
      (hw1 ▸ hx1) (hh1 ▸ hy1) (hw2 ▸ hx2) (hh2 ▸ hy2) hmem'
    exact ⟨h'.1.trans hstep.1, h'.2.trans hstep.2⟩

theorem outerFold_get_self (ys : List Nat) (st : Grid Char × Grid α) (x y : Nat)
    (hndy : ys.Nodup) (hy : y ∈ ys) (hndx : xs.Nodup)
    (hwf1 : st.1.WF) (hwf2 : st.2.WF)
    (hx1 : x < st.1.width) (hy1 : y < st.1.height)
    (hx2 : x < st.2.width) (hy2 : y < st.2.height)
    (prev : α) (hprev : st.2.get x y = some prev) :
    (((ys.foldl
        (fun st y => xs.foldl (fun st x => rasterPixel a b c abc v st x y) st) st)).1.get
        x y,
      ((ys.foldl
        (fun st y => xs.foldl (fun st x => rasterPixel a b c abc v st x y) st) st)).2.get
        x y) =
    if x ∈ xs ∧ insideTest a b c x y = true ∧
        FltOps.bge (pixelDepth a b c abc x y) prev = false then
      (some v, some (pixelDepth a b c abc x y))
    else
      (st.1.get x y, some prev) := by
  induction ys generalizing st with
  | nil => cases hy
  | cons y₁ rest ih =>
    simp only [List.foldl_cons]
    have hg := innerFold_gdims a b c abc v y₁ xs st
    obtain ⟨hw1, hh1, _⟩ := gdims_spec hg.1
    obtain ⟨hw2, hh2, _⟩ := gdims_spec hg.2
    by_cases hy₁ : y = y₁
    · subst hy₁
      have hnotrest : y ∉ rest := (List.nodup_cons.mp hndy).1
      have hrest := outerFold_get_other a b c abc v xs rest
        (xs.foldl (fun st x => rasterPixel a b c abc v st x y) st) x y
        (hw1 ▸ hx1) (hh1 ▸ hy1) (hw2 ▸ hx2) (hh2 ▸ hy2) (Or.inl hnotrest)
      rw [hrest.1, hrest.2]
      by_cases hxxs : x ∈ xs
      · have hrow := innerFold_get_self a b c abc v y xs st x hndx hxxs hwf1 hwf2
          hx1 hy1 hx2 hy2 prev hprev
        rw [Prod.ext_iff] at hrow
        by_cases hcond : insideTest a b c x y = true ∧
            FltOps.bge (pixelDepth a b c abc x y) prev = false
        · have hcond' : x ∈ xs ∧ insideTest a b c x y = true ∧
              FltOps.bge (pixelDepth a b c abc x y) prev = false :=
            ⟨hxxs, hcond.1, hcond.2⟩
          simp only [if_pos hcond] at hrow
          simp only [if_pos hcond']
          exact Prod.ext_iff.mpr ⟨hrow.1, hrow.2⟩
        · simp only [if_neg hcond] at hrow
          have : ¬(x ∈ xs ∧ insideTest a b c x y = true ∧
              FltOps.bge (pixelDepth a b c abc x y) prev = false) := by
            rintro ⟨_, h2, h3⟩; exact hcond ⟨h2, h3⟩
          simp only [if_neg this]
          exact Prod.ext_iff.mpr ⟨hrow.1, hrow.2⟩
      · have hrow := innerFold_get_other a b c abc v y xs st x y hx1 hy1 hx2 hy2
          (Or.inr hxxs)
        have : ¬(x ∈ xs ∧ insideTest a b c x y = true ∧
            FltOps.bge (pixelDepth a b c abc x y) prev = false) := by
          rintro ⟨h1, _, _⟩; exact hxxs h1
        simp only [if_neg this]
        rw [hrow.1, hrow.2, hprev]
    · have hyrest : y ∈ rest := by
        rcases List.mem_cons.mp hy with h | h
        · exact absurd h hy₁
        · exact h
      have hstep := innerFold_get_other a b c abc v y₁ xs st x y hx1 hy1 hx2 hy2
        (Or.inl hy₁)
      have h' := ih (xs.foldl (fun st x => rasterPixel a b c abc v st x y₁) st)
        (List.nodup_cons.mp hndy).2 hyrest
        (wf_of_gdims_eq hg.1 hwf1) (wf_of_gdims_eq hg.2 hwf2)
        (hw1 ▸ hx1) (hh1 ▸ hy1) (hw2 ▸ hx2) (hh2 ▸ hy2)
        (hstep.2.trans hprev)
      rw [h', hstep.1]

end OuterFoldLemmas

theorem rasterize_triangle_gdims (t : Triangle α) (g : Grid Char) (db : Grid α)
    (v : Char) :
    gdims (rasterize_triangle t g db v).1 = gdims g ∧
      gdims (rasterize_triangle t g db v).2 = gdims db := by
  unfold rasterize_triangle
  cases hz : zReject t
  · simp only [Bool.false_eq_true, if_false]
    rcases t.get_bounding_box with ⟨min_x, min_y, max_x, max_y⟩
    exact outerFold_gdims t.a t.b t.c _ v _ _ (g, db)
  · simp

theorem candidate_eq (t : Triangle α) (x y : Nat) {min_x min_y max_x max_y : Nat}
    (hbb : t.get_bounding_box = (min_x, min_y, max_x, max_y)) :
    candidate t x y =
      if zReject t = false ∧ min_x ≤ x ∧ x < max_x ∧ min_y ≤ y ∧ y < max_y ∧
          insideTest t.a t.b t.c x y = true then
        some (pixelDepth t.a t.b t.c (edge_function t.a t.b t.c) x y)
      else
        none := by
  unfold candidate
  rw [hbb]

/-- Pixel-level characterization of `rasterize_triangle`: the final contents
of a valid cell `(x, y)` of well-formed buffers are determined by `candidate`
and the previously stored depth alone. -/
theorem rasterize_triangle_get (t : Triangle α) (g : Grid Char) (db : Grid α)
    (v : Char) (x y : Nat)
    (hwf1 : g.WF) (hwf2 : db.WF)
    (hx1 : x < g.width) (hy1 : y < g.height)
    (hx2 : x < db.width) (hy2 : y < db.height)
    (prev : α) (hprev : db.get x y = some prev) :
    ((rasterize_triangle t g db v).1.get x y,
      (rasterize_triangle t g db v).2.get x y) =
    match candidate t x y with
    | some d => if FltOps.bge d prev = true then (g.get x y, some prev)
                else (some v, some d)
    | none => (g.get x y, some prev) := by
  rcases hbb : t.get_bounding_box with ⟨min_x, min_y, max_x, max_y⟩
  rw [candidate_eq t x y hbb]
  unfold rasterize_triangle
  rw [hbb]
  by_cases hz : zReject t = true
  · have hc2 : ¬(zReject t = false ∧ min_x ≤ x ∧ x < max_x ∧ min_y ≤ y ∧
        y < max_y ∧ insideTest t.a t.b t.c x y = true) := by
      rintro ⟨h1, _⟩; rw [hz] at h1; cases h1
    rw [if_pos hz, if_neg hc2, hprev]
  · have hzf : zReject t = false := by revert hz; cases zReject t <;> simp
    rw [if_neg hz]
    by_cases hyin : min_y ≤ y ∧ y < max_y
    · by_cases hxin : min_x ≤ x ∧ x < max_x
      · have hymem : y ∈ List.range' min_y (max_y - min_y) := by
          rw [List.mem_range'_1]; omega
        have hxmem : x ∈ List.range' min_x (max_x - min_x) := by
          rw [List.mem_range'_1]; omega
        have h := outerFold_get_self t.a t.b t.c (edge_function t.a t.b t.c) v
          (List.range' min_x (max_x - min_x)) (List.range' min_y (max_y - min_y))
          (g, db) x y (List.nodup_range' _ _) hymem (List.nodup_range' _ _)
          hwf1 hwf2 hx1 hy1 hx2 hy2 prev hprev
        rw [h]
        by_cases hins : insideTest t.a t.b t.c x y = true
        · have hc2 : zReject t = false ∧ min_x ≤ x ∧ x < max_x ∧ min_y ≤ y ∧
              y < max_y ∧ insideTest t.a t.b t.c x y = true :=
            ⟨hzf, hxin.1, hxin.2, hyin.1, hyin.2, hins⟩
          rw [if_pos hc2]
          by_cases hbge : FltOps.bge
              (pixelDepth t.a t.b t.c (edge_function t.a t.b t.c) x y) prev = true
          · have hc1 : ¬(x ∈ List.range' min_x (max_x - min_x) ∧
                insideTest t.a t.b t.c x y = true ∧
                FltOps.bge (pixelDepth t.a t.b t.c (edge_function t.a t.b t.c) x y) prev
                  = false) := by
              rintro ⟨_, _, h3⟩; rw [hbge] at h3; cases h3
            rw [if_neg hc1]
            simp [hbge]
          · have hbgef : FltOps.bge
                (pixelDepth t.a t.b t.c (edge_function t.a t.b t.c) x y) prev = false := by
              revert hbge
              cases FltOps.bge (pixelDepth t.a t.b t.c (edge_function t.a t.b t.c) x y)
                prev <;> simp
            have hc1 : x ∈ List.range' min_x (max_x - min_x) ∧
                insideTest t.a t.b t.c x y = true ∧
                FltOps.bge (pixelDepth t.a t.b t.c (edge_function t.a t.b t.c) x y) prev
                  = false := ⟨hxmem, hins, hbgef⟩
            rw [if_pos hc1]
            simp [hbgef]
        · have hc1 : ¬(x ∈ List.range' min_x (max_x - min_x) ∧
              insideTest t.a t.b t.c x y = true ∧
              FltOps.bge (pixelDepth t.a t.b t.c (edge_function t.a t.b t.c) x y) prev
                = false) := by
            rintro ⟨_, h2, _⟩; exact hins h2
          have hc2 : ¬(zReject t = false ∧ min_x ≤ x ∧ x < max_x ∧ min_y ≤ y ∧
              y < max_y ∧ insideTest t.a t.b t.c x y = true) := by
            rintro ⟨_, _, _, _, _, h6⟩; exact hins h6
          rw [if_neg hc1, if_neg hc2]
      · have hxmem : x ∉ List.range' min_x (max_x - min_x) := by
          rw [List.mem_range'_1]; omega
        have h := outerFold_get_other t.a t.b t.c (edge_function t.a t.b t.c) v
          (List.range' min_x (max_x - min_x)) (List.range' min_y (max_y - min_y))
          (g, db) x y hx1 hy1 hx2 hy2 (Or.inr hxmem)
        have hc2 : ¬(zReject t = false ∧ min_x ≤ x ∧ x < max_x ∧ min_y ≤ y ∧
            y < max_y ∧ insideTest t.a t.b t.c x y = true) := by
          rintro ⟨_, h2, h3, _, _, _⟩; exact hxin ⟨h2, h3⟩
        rw [if_neg hc2, h.1, h.2, hprev]
    · have hymem : y ∉ List.range' min_y (max_y - min_y) := by
        rw [List.mem_range'_1]; omega
      have h := outerFold_get_other t.a t.b t.c (edge_function t.a t.b t.c) v
        (List.range' min_x (max_x - min_x)) (List.range' min_y (max_y - min_y))
        (g, db) x y hx1 hy1 hx2 hy2 (Or.inl hymem)
      have hc2 : ¬(zReject t = false ∧ min_x ≤ x ∧ x < max_x ∧ min_y ≤ y ∧
          y < max_y ∧ insideTest t.a t.b t.c x y = true) := by
        rintro ⟨_, _, _, h4, h5, _⟩; exact hyin ⟨h4, h5⟩
      rw [if_neg hc2, h.1, h.2, hprev]

end RasterLemmas

/-! ## Monotonicity of the depth buffer (exact-rational model) -/

/-- Pointwise order on optional stored depths: an existing cell may only
shrink, a missing cell stays missing. -/
def depthLe : Option ℚ → Option ℚ → Prop
  | some a, some b => a ≤ b
  | none, none => True
  | _, _ => False

theorem depthLe_refl (o : Option ℚ) : depthLe o o := by
  cases o <;> simp [depthLe]

theorem depthLe_trans {o₁ o₂ o₃ : Option ℚ} (h₁ : depthLe o₁ o₂) (h₂ : depthLe o₂ o₃) :
    depthLe o₁ o₃ := by
  cases o₁ <;> cases o₂ <;> cases o₃ <;> simp_all [depthLe]
  exact le_trans h₁ h₂

theorem rasterPixel_depthLe (a b c : Vector3 ℚ) (abc : ℚ) (v : Char)
    (st : Grid Char × Grid ℚ) (x₀ y₀ x y : Nat) :
    depthLe ((rasterPixel a b c abc v st x₀ y₀).2.get x y) (st.2.get x y) := by
  unfold rasterPixel
  cases hins : insideTest a b c x₀ y₀
  · simp [depthLe_refl]
  · simp only [hins, Bool.not_true, Bool.false_eq_true, if_false]
    cases hget : st.2.get x₀ y₀ with
    | none =>
      simp only [hget, Bool.false_eq_true, if_false]
      have hlen : st.2.data.length ≤ y₀ * st.2.width + x₀ := by
        have := hget
        unfold Grid.get at this
        exact List.getElem?_eq_none_iff.mp this
      rw [Grid.set_of_len_le st.2 _ x₀ y₀ hlen]
      exact depthLe_refl _
    | some prev =>
      cases hbge : FltOps.bge (pixelDepth a b c abc x₀ y₀) prev
      · simp only [hget, hbge, Bool.false_eq_true, if_false]
        have hlt : pixelDepth a b c abc x₀ y₀ < prev := by
          rw [ratBge] at hbge
          exact lt_of_not_le (of_decide_eq_false hbge)
        unfold Grid.set
        by_cases hcond : st.2.data.length ≤ y₀ * st.2.width + x₀ ∨
            st.2.height ≤ y₀ ∨ st.2.width ≤ x₀
        · simp only [if_pos hcond]
          exact depthLe_refl _
        · simp only [if_neg hcond]
          push_neg at hcond
          unfold Grid.get
          simp only
          by_cases hidx : y * st.2.width + x = y₀ * st.2.width + x₀
          · rw [hidx, List.getElem?_set_self (by omega)]
            have hold : st.2.get x y = some prev := by
              unfold Grid.get at hget ⊢
              rw [hidx]; exact hget
            unfold Grid.get at hold
            rw [hidx] at hold
            rw [hold]
            exact le_of_lt hlt
          · rw [List.getElem?_set_ne (fun hh => hidx hh.symm)]
            exact depthLe_refl _
      · simp [hget, hbge, depthLe_refl]

theorem innerFold_depthLe (a b c : Vector3 ℚ) (abc : ℚ) (v : Char) (y₀ : Nat)
    (xs : List Nat) (st : Grid Char × Grid ℚ) (x y : Nat) :
    depthLe ((xs.foldl (fun st x => rasterPixel a b c abc v st x y₀) st).2.get x y)
      (st.2.get x y) := by
  induction xs generalizing st with
  | nil => exact depthLe_refl _
  | cons x₁ rest ih =>
    simp only [List.foldl_cons]
    exact depthLe_trans (ih (rasterPixel a b c abc v st x₁ y₀))
      (rasterPixel_depthLe a b c abc v st x₁ y₀ x y)

theorem outerFold_depthLe (a b c : Vector3 ℚ) (abc : ℚ) (v : Char)
    (xs ys : List Nat) (st : Grid Char × Grid ℚ) (x y : Nat) :
    depthLe ((ys.foldl
        (fun st y => xs.foldl (fun st x => rasterPixel a b c abc v st x y) st)
        st).2.get x y)
      (st.2.get x y) := by
  induction ys generalizing st with
  | nil => exact depthLe_refl _
  | cons y₁ rest ih =>
    simp only [List.foldl_cons]
    exact depthLe_trans
      (ih (xs.foldl (fun st x => rasterPixel a b c abc v st x y₁) st))
      (innerFold_depthLe a b c abc v y₁ xs st x y)

theorem rasterize_triangle_depthLe (t : Triangle ℚ) (g : Grid Char) (db : Grid ℚ)
    (v : Char) (x y : Nat) :
    depthLe ((rasterize_triangle t g db v).2.get x y) (db.get x y) := by
  unfold rasterize_triangle
  cases hz : zReject t
  · simp only [Bool.false_eq_true, if_false]
    rcases t.get_bounding_box with ⟨min_x, min_y, max_x, max_y⟩
    exact outerFold_depthLe t.a t.b t.c _ v _ _ (g, db) x y
  · simp [depthLe_refl]

/-! ## Correctness of `Grid.clear` -/

namespace Grid

/-- A `set` aimed anywhere (valid or not) leaves every other valid cell
untouched. -/
theorem get_set_untouched (g : Grid α) (w : α) (x₀ y₀ x y : Nat)
    (hx : x < g.width) (hy : y < g.height) (hne : ¬(x = x₀ ∧ y = y₀)) :
    (g.set w x₀ y₀).1.get x y = g.get x y := by
  by_cases hv : x₀ < g.width
  · exact get_set_other g w x₀ y₀ x y (index_inj g.width x₀ y₀ x y hv hx hne)
  · rw [set_of_ge g w x₀ y₀ (Or.inl (Nat.le_of_not_lt hv))]

theorem clearInner_gdims (v : α) (y₀ : Nat) (xs : List Nat) (g : Grid α) :
    gdims (xs.foldl (fun gx x => (gx.set v x y₀).1) g) = gdims g := by
  induction xs generalizing g with
  | nil => rfl
  | cons x₁ rest ih =>
    simp only [List.foldl_cons]
    have h := set_dims g v x₁ y₀
    refine (ih ((g.set v x₁ y₀).1)).trans ?_
    simp [gdims, h.1.1, h.1.2, h.2]

theorem clearInner_get_other (v : α) (y₀ : Nat) (xs : List Nat) (g : Grid α)
    (x y : Nat) (hx : x < g.width) (hy : y < g.height) (hmem : y ≠ y₀ ∨ x ∉ xs) :
    (xs.foldl (fun gx x => (gx.set v x y₀).1) g).get x y = g.get x y := by
  induction xs generalizing g with
  | nil => rfl
  | cons x₁ rest ih =>
    simp only [List.foldl_cons]
    have hne : ¬(x = x₁ ∧ y = y₀) := by
      rcases hmem with h | h
      · exact fun hc => h hc.2
      · exact fun hc => h (by simp [hc.1])
    have hd := gdims_spec
      (show gdims (g.set v x₁ y₀).1 = gdims g by
        have h := set_dims g v x₁ y₀; simp [gdims, h.1.1, h.1.2, h.2])
    have hmem' : y ≠ y₀ ∨ x ∉ rest := by
      rcases hmem with h | h
      · exact Or.inl h
      · exact Or.inr (fun hc => h (List.mem_cons_of_mem x₁ hc))
    rw [ih ((g.set v x₁ y₀).1) (hd.1 ▸ hx) (hd.2.1 ▸ hy) hmem']
    exact get_set_untouched g v x₁ y₀ x y hx hy hne

theorem clearInner_get_mem (v : α) (y₀ : Nat) (xs : List Nat) (g : Grid α)
    (x : Nat) (hwf : g.WF) (hx : x < g.width) (hy₀ : y₀ < g.height)
    (hmem : x ∈ xs) :
    (xs.foldl (fun gx x => (gx.set v x y₀).1) g).get x y₀ = some v := by
  induction xs generalizing g with
  | nil => cases hmem
  | cons x₁ rest ih =>
    simp only [List.foldl_cons]
    have hd := gdims_spec
      (show gdims (g.set v x₁ y₀).1 = gdims g by
        have h := set_dims g v x₁ y₀; simp [gdims, h.1.1, h.1.2, h.2])
    by_cases hrest : x ∈ rest
    · exact ih ((g.set v x₁ y₀).1) (wf_set g v x₁ y₀ hwf) (hd.1 ▸ hx)
        (hd.2.1 ▸ hy₀) hrest
    · have hx₁ : x = x₁ := by
        rcases List.mem_cons.mp hmem with h | h
        · exact h
        · exact absurd h hrest
      subst hx₁
      rw [clearInner_get_other v y₀ rest ((g.set v x y₀).1) x y₀
        (hd.1 ▸ hx) (hd.2.1 ▸ hy₀) (Or.inr hrest)]
      exact get_set_self g v x y₀ hwf hx hy₀

theorem clearOuter_get (v : α) (ys : List Nat) (g : Grid α) (x y : Nat)
    (hwf : g.WF) (hx : x < g.width) (hy : y < g.height) :
    (ys.foldl (fun gy yy => (List.range gy.width).foldl
        (fun gx xx => (gx.set v xx yy).1) gy) g).get x y =
      if y ∈ ys then some v else g.get x y := by
  induction ys generalizing g with
  | nil => simp
  | cons y₁ rest ih =>
    simp only [List.foldl_cons]
    have hd := gdims_spec (clearInner_gdims v y₁ (List.range g.width) g)
    have hwf1 : ((List.range g.width).foldl (fun gx xx => (gx.set v xx y₁).1) g).WF :=
      wf_of_gdims_eq (clearInner_gdims v y₁ (List.range g.width) g) hwf
    rw [ih _ hwf1 (hd.1.symm ▸ hx) (hd.2.1.symm ▸ hy)]
    by_cases hyrest : y ∈ rest
    · simp [hyrest]
    · by_cases hy₁ : y = y₁
      · subst hy₁
        rw [clearInner_get_mem v y (List.range g.width) g x hwf hx hy
          (List.mem_range.mpr hx)]
        simp [hyrest]
      · rw [clearInner_get_other v y₁ (List.range g.width) g x y hx hy (Or.inl hy₁)]
        simp [hyrest, hy₁]

/-- After `clear v`, every in-range cell reads `v`. -/
theorem clear_get (g : Grid α) (v : α) (hwf : g.WF) (x y : Nat)
    (hx : x < g.width) (hy : y < g.height) :
    (g.clear v).get x y = some v := by
  unfold clear
  rw [clearOuter_get v (List.range g.height) g x y hwf hx hy]
  simp [List.mem_range.mpr hy]

end Grid

/-! ## Matrices (src/matrix/matrix3.rs, src/matrix/matrix4.rs)

Column-vector matrices.  `row`/`col` return `Option`, with `none` modelling
the `panic!` arm of the source `match`. -/

/-- `Matrix3` (matrix3.rs:5-10): three column vectors. -/
@[ext]
structure Matrix3 (α : Type) where
  x : Vector3 α
  y : Vector3 α
  z : Vector3 α

/-- `Matrix4` (matrix4.rs:15-21): four column vectors. -/
@[ext]
structure Matrix4 (α : Type) where
  x : Vector4 α
  y : Vector4 α
  z : Vector4 α
  w : Vector4 α

namespace Matrix3

/-- `Matrix3::from_rows` (matrix3.rs:30-36). -/
def from_rows (x y z : Vector3 α) : Matrix3 α :=
  ⟨⟨x.x, y.x, z.x⟩, ⟨x.y, y.y, z.y⟩, ⟨x.z, y.z, z.z⟩⟩

/-- `Matrix3::from_cols` (matrix3.rs:38-40). -/
def from_cols (x y z : Vector3 α) : Matrix3 α := ⟨x, y, z⟩

/-- `Matrix3::new` (matrix3.rs:13-28): row-major entries. -/
def new (m00 m01 m02 m10 m11 m12 m20 m21 m22 : α) : Matrix3 α :=
  from_rows ⟨m00, m01, m02⟩ ⟨m10, m11, m12⟩ ⟨m20, m21, m22⟩

/-- `Matrix::row` for `Matrix3` (matrix3.rs:46-53); `none` is the panic. -/
def row (m : Matrix3 α) : Nat → Option (Vector3 α)
  | 0 => some ⟨m.x.x, m.y.x, m.z.x⟩
  | 1 => some ⟨m.x.y, m.y.y, m.z.y⟩
  | 2 => some ⟨m.x.z, m.y.z, m.z.z⟩
  | _ => none

/-- `Matrix::col` for `Matrix3` (matrix3.rs:55-62); `none` is the panic. -/
def col (m : Matrix3 α) : Nat → Option (Vector3 α)
  | 0 => some m.x
  | 1 => some m.y
  | 2 => some m.z
  | _ => none

/-- `Matrix::transpose` for `Matrix3` (matrix3.rs:64-66). -/
def transpose (m : Matrix3 α) : Matrix3 α :=
  from_rows m.x m.y m.z

/-- `Matrix::identity` for `Matrix3` (matrix3.rs:68-73). -/
def identity [Zero α] [One α] : Matrix3 α :=
  from_cols ⟨1, 0, 0⟩ ⟨0, 1, 0⟩ ⟨0, 0, 1⟩

/-- `impl Mul<Vector3> for Matrix3` (matrix3.rs:143-149): linear combination
of the columns. -/
def mulVec [Add α] [Mul α] (m : Matrix3 α) (v : Vector3 α) : Vector3 α :=
  v.x * m.x + v.y * m.y + v.z * m.z

instance [Add α] [Mul α] : HMul (Matrix3 α) (Vector3 α) (Vector3 α) := ⟨mulVec⟩

/-- `impl Mul<Matrix3> for Matrix3` (matrix3.rs:152-161). -/
def mulMat [Add α] [Mul α] (m other : Matrix3 α) : Matrix3 α :=
  from_cols (m.mulVec other.x) (m.mulVec other.y) (m.mulVec other.z)

instance [Add α] [Mul α] : Mul (Matrix3 α) := ⟨mulMat⟩

end Matrix3

/-- `Angle` (src/matrix/rotation.rs:3-6). -/
inductive Angle where
  | Radians (r : ℝ)
  | Degrees (d : ℝ)

/-- The `match` every rotation/perspective builder performs on its `Angle`
argument; `f32::to_radians` is multiplication by `π / 180`. -/
noncomputable def Angle.toRadians : Angle → ℝ
  | .Degrees d => d * (Real.pi / 180)
  | .Radians r => r

namespace Matrix3

noncomputable section

/-- `Rotation::x_rotation_matrix` for `Matrix3` (matrix3.rs:86-100). -/
def x_rotation_matrix (angle : Angle) : Matrix3 ℝ :=
  let angle := angle.toRadians
  let cos := Real.cos angle
  let sin := Real.sin angle
  new 1 0 0 0 cos (-sin) 0 sin cos

/-- `Rotation::y_rotation_matrix` for `Matrix3` (matrix3.rs:103-117). -/
def y_rotation_matrix (angle : Angle) : Matrix3 ℝ :=
  let angle := angle.toRadians
  let cos := Real.cos angle
  let sin := Real.sin angle
  new cos 0 sin 0 1 0 (-sin) 0 cos

/-- `Rotation::z_rotation_matrix` for `Matrix3` (matrix3.rs:119-133). -/
def z_rotation_matrix (angle : Angle) : Matrix3 ℝ :=
  let angle := angle.toRadians
  let cos := Real.cos angle
  let sin := Real.sin angle
  new cos (-sin) 0 sin cos 0 0 0 1

/-- `Rotation::rotation_matrix` for `Matrix3` (matrix3.rs:135-139):
`Rz(roll) * Ry(pitch) * Rx(yaw)`. -/
def rotation_matrix (yaw pitch roll : Angle) : Matrix3 ℝ :=
  z_rotation_matrix roll * y_rotation_matrix pitch * x_rotation_matrix yaw

end

end Matrix3

/-- `Vector4::to_vector4` — called at matrix4.rs:63-66 and main.rs:343 but
absent from src (its stale twin `from_vector3` is at vector4.rs:38-41).
Modelled from the spec: homogeneous conversion carrying the given `w`
(§4.1 homogeneous/cartesian). -/
def Vector4.to_vector4 (v : Vector3 α) (w : α) : Vector4 α :=
  ⟨v.x, v.y, v.z, w⟩

/-- Modelled from the spec: `Vector4::cartesian` is called by
`Mul<Vector3> for Matrix4` (matrix4.rs:193) but missing from src; spec §4.1:
"recovering cartesian from a Vector4 divides x,y,z by w". -/
def Vector4.cartesian [Div α] (v : Vector4 α) : Vector3 α :=
  ⟨v.x / v.w, v.y / v.w, v.z / v.w⟩

namespace Matrix4

/-- `Matrix4::from_rows` (matrix4.rs:49-56). -/
def from_rows (x y z w : Vector4 α) : Matrix4 α :=
  ⟨⟨x.x, y.x, z.x, w.x⟩, ⟨x.y, y.y, z.y, w.y⟩,
   ⟨x.z, y.z, z.z, w.z⟩, ⟨x.w, y.w, z.w, w.w⟩⟩

/-- `Matrix4::from_cols` (matrix4.rs:58-60). -/
def from_cols (x y z w : Vector4 α) : Matrix4 α := ⟨x, y, z, w⟩

/-- `Matrix4::to_homogenous` (matrix4.rs:62-68): embed a `Matrix3` with zero
translation row/column. -/
def to_homogenous [Zero α] [One α] (mat : Matrix3 α) : Matrix4 α :=
  from_cols (Vector4.to_vector4 mat.x 0) (Vector4.to_vector4 mat.y 0)
    (Vector4.to_vector4 mat.z 0) ⟨0, 0, 0, 1⟩

/-- `Matrix::row` for `Matrix4` (matrix4.rs:78-86); `none` is the panic. -/
def row (m : Matrix4 α) : Nat → Option (Vector4 α)
  | 0 => some ⟨m.x.x, m.y.x, m.z.x, m.w.x⟩
  | 1 => some ⟨m.x.y, m.y.y, m.z.y, m.w.y⟩
  | 2 => some ⟨m.x.z, m.y.z, m.z.z, m.w.z⟩
  | 3 => some ⟨m.x.w, m.y.w, m.z.w, m.w.w⟩
  | _ => none

/-- `Matrix::col` for `Matrix4` (matrix4.rs:88-95); `none` is the panic.
The source `match` has arms for 0, 1 and 2 only — index 3 falls through to
`panic!`. -/
def col (m : Matrix4 α) : Nat → Option (Vector4 α)
  | 0 => some m.x
  | 1 => some m.y
  | 2 => some m.z
  | _ => none

/-- `Matrix::transpose` for `Matrix4` (matrix4.rs:97-99). -/
def transpose (m : Matrix4 α) : Matrix4 α :=
  from_rows m.x m.y m.z m.w

/-- `Matrix::identity` for `Matrix4` (matrix4.rs:101-107). -/
def identity [Zero α] [One α] : Matrix4 α :=
  from_cols ⟨1, 0, 0, 0⟩ ⟨0, 1, 0, 0⟩ ⟨0, 0, 1, 0⟩ ⟨0, 0, 0, 1⟩

/-- `impl Mul<Vector4> for Matrix4` (matrix4.rs:179-185). -/
def mulVec [Add α] [Mul α] (m : Matrix4 α) (v : Vector4 α) : Vector4 α :=
  v.x * m.x + v.y * m.y + v.z * m.z + v.w * m.w

instance [Add α] [Mul α] : HMul (Matrix4 α) (Vector4 α) (Vector4 α) := ⟨mulVec⟩

/-- `impl Mul<Matrix4> for Matrix4` (matrix4.rs:198-208). -/
def mulMat [Add α] [Mul α] (m other : Matrix4 α) : Matrix4 α :=
  from_cols (m.mulVec other.x) (m.mulVec other.y) (m.mulVec other.z)
    (m.mulVec other.w)

instance [Add α] [Mul α] : Mul (Matrix4 α) := ⟨mulMat⟩

/-- `impl Mul<Vector3> for Matrix4` (matrix4.rs:187-195): homogenize with
`w = 1`, multiply, drop back to cartesian (perspective divide). -/
def mulVec3 [Add α] [Mul α] [Div α] [One α] (m : Matrix4 α) (v : Vector3 α) :
    Vector3 α :=
  let v4 := Vector4.to_homogeneous v
  let v4 := m.mulVec v4
  v4.cartesian

instance [Add α] [Mul α] [Div α] [One α] : HMul (Matrix4 α) (Vector3 α) (Vector3 α) :=
  ⟨mulVec3⟩

/-- `Matrix4::translation` (matrix4.rs:111-117). -/
def translation [Zero α] [One α] (t : Vector3 α) : Matrix4 α :=
  from_cols ⟨1, 0, 0, 0⟩ ⟨0, 1, 0, 0⟩ ⟨0, 0, 1, 0⟩ (Vector4.to_homogeneous t)

noncomputable section

/-- `Rotation::rotation` for `Matrix4` (matrix4.rs:173-175). -/
def rotation (yaw pitch roll : Angle) : Matrix4 ℝ :=
  to_homogenous (Matrix3.rotation_matrix yaw pitch roll)

/-- `Matrix4::view` (matrix4.rs:119-121). -/
def view (yaw pitch roll : Angle) (t : Vector3 ℝ) : Matrix4 ℝ :=
  (rotation yaw pitch roll).transpose * translation (-t)

/-- `Matrix4::perspective` (matrix4.rs:123-139). -/
def perspective (fov : Angle) (z_far z_near aspect : ℝ) : Matrix4 ℝ :=
  let fov := fov.toRadians
  let tan := Real.tan (fov / 2)
  let x : Vector4 ℝ := ⟨1 / (aspect * tan), 0, 0, 0⟩
  let y : Vector4 ℝ := ⟨0, 1 / tan, 0, 0⟩
  let z : Vector4 ℝ := ⟨0, 0, -((z_far + z_near) / (z_far - z_near)), -1⟩
  let w : Vector4 ℝ := ⟨0, 0, -((2 * z_far * z_near) / (z_far - z_near)), 0⟩
  from_cols x y z w

end

end Matrix4

/-! ## Algebraic facts about the matrix layer -/

theorem v3add_def [Add α] (a b : Vector3 α) :
    a + b = ⟨b.x + a.x, b.y + a.y, b.z + a.z⟩ := rfl

theorem v3neg_def [Neg α] (v : Vector3 α) : -v = ⟨-v.x, -v.y, -v.z⟩ := rfl

theorem sv3mul_def [Mul α] (s : α) (v : Vector3 α) :
    s * v = (⟨s * v.x, s * v.y, s * v.z⟩ : Vector3 α) := rfl

theorem v4add_def [Add α] (a b : Vector4 α) :
    a + b = ⟨b.x + a.x, b.y + a.y, b.z + a.z, b.w + a.w⟩ := rfl

theorem sv4mul_def [Mul α] (s : α) (v : Vector4 α) :
    s * v = (⟨s * v.x, s * v.y, s * v.z, s * v.w⟩ : Vector4 α) := rfl

theorem m3mul_def [Add α] [Mul α] (m o : Matrix3 α) : m * o = m.mulMat o := rfl

theorem m4mul_def [Add α] [Mul α] (m o : Matrix4 α) : m * o = m.mulMat o := rfl

theorem m3_mul_assoc (A B C : Matrix3 ℝ) : A * B * C = A * (B * C) := by
  ext <;>
    simp [m3mul_def, Matrix3.mulMat, Matrix3.mulVec, Matrix3.from_cols,
      v3add_def, sv3mul_def] <;>
    ring

theorem m3_transpose_mul (A B : Matrix3 ℝ) :
    (A * B).transpose = B.transpose * A.transpose := by
  ext <;>
    simp [m3mul_def, Matrix3.mulMat, Matrix3.mulVec, Matrix3.from_cols,
      Matrix3.from_rows, Matrix3.transpose, v3add_def, sv3mul_def] <;>
    ring

theorem m3_id_mul (A : Matrix3 ℝ) : Matrix3.identity * A = A := by
  ext <;>
    simp [m3mul_def, Matrix3.mulMat, Matrix3.mulVec, Matrix3.from_cols,
      Matrix3.identity, v3add_def, sv3mul_def]

theorem m3_mul_id (A : Matrix3 ℝ) : A * Matrix3.identity = A := by
  ext <;>
    simp [m3mul_def, Matrix3.mulMat, Matrix3.mulVec, Matrix3.from_cols,
      Matrix3.identity, v3add_def, sv3mul_def]

theorem xrot_orth (angle : Angle) :
    Matrix3.x_rotation_matrix angle * (Matrix3.x_rotation_matrix angle).transpose =
        Matrix3.identity ∧
      (Matrix3.x_rotation_matrix angle).transpose * Matrix3.x_rotation_matrix angle =
        Matrix3.identity := by
  constructor <;>
    · ext <;>
        simp [m3mul_def, Matrix3.mulMat, Matrix3.mulVec, Matrix3.from_cols,
          Matrix3.from_rows, Matrix3.new, Matrix3.transpose, Matrix3.identity,
          Matrix3.x_rotation_matrix, v3add_def, sv3mul_def] <;>
        nlinarith [Real.sin_sq_add_cos_sq angle.toRadians]

theorem yrot_orth (angle : Angle) :
    Matrix3.y_rotation_matrix angle * (Matrix3.y_rotation_matrix angle).transpose =
        Matrix3.identity ∧
      (Matrix3.y_rotation_matrix angle).transpose * Matrix3.y_rotation_matrix angle =
        Matrix3.identity := by
  constructor <;>
    · ext <;>
        simp [m3mul_def, Matrix3.mulMat, Matrix3.mulVec, Matrix3.from_cols,
          Matrix3.from_rows, Matrix3.new, Matrix3.transpose, Matrix3.identity,
          Matrix3.y_rotation_matrix, v3add_def, sv3mul_def] <;>
        nlinarith [Real.sin_sq_add_cos_sq angle.toRadians]

theorem zrot_orth (angle : Angle) :
    Matrix3.z_rotation_matrix angle * (Matrix3.z_rotation_matrix angle).transpose =
        Matrix3.identity ∧
      (Matrix3.z_rotation_matrix angle).transpose * Matrix3.z_rotation_matrix angle =
        Matrix3.identity := by
  constructor <;>
    · ext <;>
        simp [m3mul_def, Matrix3.mulMat, Matrix3.mulVec, Matrix3.from_cols,
          Matrix3.from_rows, Matrix3.new, Matrix3.transpose, Matrix3.identity,
          Matrix3.z_rotation_matrix, v3add_def, sv3mul_def] <;>
        nlinarith [Real.sin_sq_add_cos_sq angle.toRadians]

/-- The composite rotation `Rz(roll) · Ry(pitch) · Rx(yaw)` is orthonormal,
both ways round. -/
theorem rot_orth (yaw pitch roll : Angle) :
    Matrix3.rotation_matrix yaw pitch roll *
        (Matrix3.rotation_matrix yaw pitch roll).transpose = Matrix3.identity ∧
      (Matrix3.rotation_matrix yaw pitch roll).transpose *
        Matrix3.rotation_matrix yaw pitch roll = Matrix3.identity := by
  set A := Matrix3.z_rotation_matrix roll with hA
  set B := Matrix3.y_rotation_matrix pitch with hB
  set C := Matrix3.x_rotation_matrix yaw with hC
  have hrot : Matrix3.rotation_matrix yaw pitch roll = A * B * C := rfl
  constructor
  · calc (A * B * C) * (A * B * C).transpose
        = (A * B * C) * (C.transpose * (B.transpose * A.transpose)) := by
          rw [m3_transpose_mul, m3_transpose_mul]
      _ = (A * B) * (C * (C.transpose * (B.transpose * A.transpose))) := by
          rw [m3_mul_assoc (A * B) C (C.transpose * (B.transpose * A.transpose))]
      _ = (A * B) * ((C * C.transpose) * (B.transpose * A.transpose)) := by
          rw [m3_mul_assoc C C.transpose (B.transpose * A.transpose)]
      _ = (A * B) * (B.transpose * A.transpose) := by
          rw [(xrot_orth yaw).1, m3_id_mul]
      _ = A * (B * (B.transpose * A.transpose)) := by
          rw [m3_mul_assoc A B (B.transpose * A.transpose)]
      _ = A * ((B * B.transpose) * A.transpose) := by
          rw [m3_mul_assoc B B.transpose A.transpose]
      _ = A * A.transpose := by rw [(yrot_orth pitch).1, m3_id_mul]
      _ = Matrix3.identity := (zrot_orth roll).1
  · calc (A * B * C).transpose * (A * B * C)
        = (C.transpose * (B.transpose * A.transpose)) * (A * B * C) := by
          rw [m3_transpose_mul, m3_transpose_mul]
      _ = C.transpose * ((B.transpose * A.transpose) * (A * B * C)) := by
          rw [m3_mul_assoc C.transpose (B.transpose * A.transpose) (A * B * C)]
      _ = C.transpose * (B.transpose * (A.transpose * (A * B * C))) := by
          rw [m3_mul_assoc B.transpose A.transpose (A * B * C)]
      _ = C.transpose * (B.transpose * (A.transpose * (A * (B * C)))) := by
          rw [m3_mul_assoc A B C]
      _ = C.transpose * (B.transpose * ((A.transpose * A) * (B * C))) := by
          rw [m3_mul_assoc A.transpose A (B * C)]
      _ = C.transpose * (B.transpose * (B * C)) := by
          rw [(zrot_orth roll).2, m3_id_mul]
      _ = C.transpose * ((B.transpose * B) * C) := by
          rw [m3_mul_assoc B.transpose B C]
      _ = C.transpose * C := by rw [(yrot_orth pitch).2, m3_id_mul]
      _ = Matrix3.identity := (xrot_orth yaw).2

theorem m4_mul_assoc (A B C : Matrix4 ℝ) : A * B * C = A * (B * C) := by
  ext <;>
    simp [m4mul_def, Matrix4.mulMat, Matrix4.mulVec, Matrix4.from_cols,
      v4add_def, sv4mul_def] <;>
    ring

theorem m4_id_mul (A : Matrix4 ℝ) : Matrix4.identity * A = A := by
  ext <;>
    simp [m4mul_def, Matrix4.mulMat, Matrix4.mulVec, Matrix4.from_cols,
      Matrix4.identity, v4add_def, sv4mul_def]

theorem m4_mul_id (A : Matrix4 ℝ) : A * Matrix4.identity = A := by
  ext <;>
    simp [m4mul_def, Matrix4.mulMat, Matrix4.mulVec, Matrix4.from_cols,
      Matrix4.identity, v4add_def, sv4mul_def]

theorem homog_mul (A B : Matrix3 ℝ) :
    Matrix4.to_homogenous A * Matrix4.to_homogenous B =
      Matrix4.to_homogenous (A * B) := by
  ext <;>
    simp [m4mul_def, Matrix4.mulMat, Matrix4.mulVec, Matrix4.from_cols,
      Matrix4.to_homogenous, Vector4.to_vector4, m3mul_def, Matrix3.mulMat,
      Matrix3.mulVec, Matrix3.from_cols, v3add_def, sv3mul_def, v4add_def,
      sv4mul_def]

theorem homog_transpose (A : Matrix3 ℝ) :
    (Matrix4.to_homogenous A).transpose = Matrix4.to_homogenous A.transpose := by
  ext <;>
    simp [Matrix4.transpose, Matrix4.from_rows, Matrix4.from_cols,
      Matrix4.to_homogenous, Vector4.to_vector4, Matrix3.transpose,
      Matrix3.from_rows]

theorem homog_id :
    Matrix4.to_homogenous (Matrix3.identity : Matrix3 ℝ) = Matrix4.identity := by
  ext <;>
    simp [Matrix4.to_homogenous, Matrix4.identity, Matrix4.from_cols,
      Vector4.to_vector4, Matrix3.identity, Matrix3.from_cols]

theorem trans_mul_trans_neg (t : Vector3 ℝ) :
    Matrix4.translation t * Matrix4.translation (-t) = Matrix4.identity ∧
      Matrix4.translation (-t) * Matrix4.translation t = Matrix4.identity := by
  constructor <;>
    · ext <;>
        simp [m4mul_def, Matrix4.mulMat, Matrix4.mulVec, Matrix4.from_cols,
          Matrix4.translation, Matrix4.identity, Vector4.to_homogeneous,
          Vector4.from_vector3, v3neg_def, v4add_def, sv4mul_def]

/-! ## The claims -/

/-- C1 (counterexample): on a 2×2 grid holding 5 at cell (0,1), the
out-of-range access `get(2,0)` (x = 2 ≥ width = 2) does not return none —
it reads flat index `0*2+2 = 2` and returns cell (0,1)'s value. -/
theorem claim_C1_counterexample :
    (((Grid.new (0:ℕ) 2 2).set 5 0 1).1.get 2 0 = some 5) ∧
      (((Grid.new (0:ℕ) 2 2).set 5 0 1).1.get 0 1 = some 5) ∧
      ((Grid.new (0:ℕ) 2 2).width ≤ 2) := by
  decide

/-- C1 (amended): `get(x,y)` returns none exactly when the flat row-major
index `y*width + x` falls outside the `width*height` backing store; every
in-range `(x,y)` reads its own cell, but an out-of-range `(x,y)` whose flat
index is still in range reads whatever cell lives at that flat index. -/
theorem claim_C1 (α : Type) (g : Grid α) (hwf : g.WF) (x y : Nat) :
    (g.get x y = none ↔ g.width * g.height ≤ y * g.width + x) ∧
      (x < g.width → y < g.height →
        ∃ h : y * g.width + x < g.data.length,
          g.get x y = some (g.data.get ⟨y * g.width + x, h⟩)) := by
  constructor
  · unfold Grid.get
    rw [List.getElem?_eq_none_iff, hwf]
  · intro hx hy
    have hidx : y * g.width + x < g.data.length := by
      rw [hwf]; exact Grid.index_lt _ _ _ _ hx hy
    exact ⟨hidx, by unfold Grid.get; rw [List.getElem?_eq_getElem hidx, List.get_eq_getElem]⟩

theorem claim_C1_witness :
    (Grid.new (0:ℕ) 2 2).WF ∧ (Grid.new (0:ℕ) 2 2).get 1 1 ≠ none := by
  have hwf : (Grid.new (0:ℕ) 2 2).WF := Grid.wf_new 0 2 2
  refine ⟨hwf, fun hc => ?_⟩
  have h := ((claim_C1 ℕ (Grid.new 0 2 2) hwf 1 1).1).mp hc
  simp [Grid.new] at h

/-- C5: `set` out of range returns `(g, false)` and mutates nothing;
in range it returns true, overwrites exactly the target cell and leaves every
other cell alone; `clear v` makes every in-range `get` read `v`. -/
theorem claim_C5 (α : Type) (g : Grid α) (hwf : g.WF) (v : α) (x y : Nat) :
    (¬(x < g.width ∧ y < g.height) → g.set v x y = (g, false)) ∧
      (x < g.width → y < g.height →
        (g.set v x y).2 = true ∧
        (g.set v x y).1.get x y = some v ∧
        (∀ x' y', x' < g.width → y' < g.height → ¬(x' = x ∧ y' = y) →
          (g.set v x y).1.get x' y' = g.get x' y')) ∧
      (∀ x' y', x' < g.width → y' < g.height → (g.clear v).get x' y' = some v) := by
  refine ⟨?_, ?_, ?_⟩
  · intro h
    rcases Nat.lt_or_ge x g.width with hx | hx
    · rcases Nat.lt_or_ge y g.height with hy | hy
      · exact absurd ⟨hx, hy⟩ h
      · exact Grid.set_of_ge g v x y (Or.inr hy)
    · exact Grid.set_of_ge g v x y (Or.inl hx)
  · intro hx hy
    refine ⟨?_, Grid.get_set_self g v x y hwf hx hy, ?_⟩
    · rw [Grid.set_of_lt g v x y hwf hx hy]
    · intro x' y' hx' hy' hne
      exact Grid.get_set_untouched g v x y x' y' hx' hy' hne
  · intro x' y' hx' hy'
    exact Grid.clear_get g v hwf x' y' hx' hy'

theorem claim_C5_witness :
    (Grid.new (7:ℕ) 2 2).WF ∧
      (Grid.new (7:ℕ) 2 2).set 9 2 0 = (Grid.new (7:ℕ) 2 2, false) ∧
      ((Grid.new (7:ℕ) 2 2).set 9 0 1).2 = true ∧
      ((Grid.new (7:ℕ) 2 2).set 9 0 1).1.get 0 1 = some 9 ∧
      ((Grid.new (7:ℕ) 2 2).set 9 0 1).1.get 1 0 = (Grid.new (7:ℕ) 2 2).get 1 0 ∧
      ((Grid.new (7:ℕ) 2 2).clear 3).get 1 1 = some 3 := by
  have hwf := Grid.wf_new (7:ℕ) 2 2
  have hin := claim_C5 ℕ (Grid.new 7 2 2) hwf 9 0 1
  have hoor := claim_C5 ℕ (Grid.new 7 2 2) hwf 9 2 0
  have hcl := claim_C5 ℕ (Grid.new 7 2 2) hwf 3 0 0
  refine ⟨hwf, ?_, ?_, ?_, ?_, ?_⟩
  · exact hoor.1 (by intro h; exact absurd h.1 (by decide))
  · exact (hin.2.1 (by decide) (by decide)).1
  · exact (hin.2.1 (by decide) (by decide)).2.1
  · exact (hin.2.1 (by decide) (by decide)).2.2 1 0 (by decide) (by decide) (by decide)
  · exact hcl.2.2 1 1 (by decide) (by decide)

/-- C7: on a `Matrix4` with sixteen distinct entries, `row` succeeds on every
index 0–3 and fails from 4 up, but `col` already fails (panics) at the
in-range index 3 — the fourth column `(13,14,15,16)` is unreachable — while
indices 0–2 work. -/
theorem claim_C7 :
    (Matrix4.from_cols (⟨1,2,3,4⟩ : Vector4 ℚ) ⟨5,6,7,8⟩ ⟨9,10,11,12⟩ ⟨13,14,15,16⟩).row 0 =
        some ⟨1,5,9,13⟩ ∧
      (Matrix4.from_cols (⟨1,2,3,4⟩ : Vector4 ℚ) ⟨5,6,7,8⟩ ⟨9,10,11,12⟩ ⟨13,14,15,16⟩).row 1 =
        some ⟨2,6,10,14⟩ ∧
      (Matrix4.from_cols (⟨1,2,3,4⟩ : Vector4 ℚ) ⟨5,6,7,8⟩ ⟨9,10,11,12⟩ ⟨13,14,15,16⟩).row 2 =
        some ⟨3,7,11,15⟩ ∧
      (Matrix4.from_cols (⟨1,2,3,4⟩ : Vector4 ℚ) ⟨5,6,7,8⟩ ⟨9,10,11,12⟩ ⟨13,14,15,16⟩).row 3 =
        some ⟨4,8,12,16⟩ ∧
      (Matrix4.from_cols (⟨1,2,3,4⟩ : Vector4 ℚ) ⟨5,6,7,8⟩ ⟨9,10,11,12⟩ ⟨13,14,15,16⟩).row 4 =
        none ∧
      (Matrix4.from_cols (⟨1,2,3,4⟩ : Vector4 ℚ) ⟨5,6,7,8⟩ ⟨9,10,11,12⟩ ⟨13,14,15,16⟩).col 0 =
        some ⟨1,2,3,4⟩ ∧
      (Matrix4.from_cols (⟨1,2,3,4⟩ : Vector4 ℚ) ⟨5,6,7,8⟩ ⟨9,10,11,12⟩ ⟨13,14,15,16⟩).col 1 =
        some ⟨5,6,7,8⟩ ∧
      (Matrix4.from_cols (⟨1,2,3,4⟩ : Vector4 ℚ) ⟨5,6,7,8⟩ ⟨9,10,11,12⟩ ⟨13,14,15,16⟩).col 2 =
        some ⟨9,10,11,12⟩ ∧
      (Matrix4.from_cols (⟨1,2,3,4⟩ : Vector4 ℚ) ⟨5,6,7,8⟩ ⟨9,10,11,12⟩ ⟨13,14,15,16⟩).col 3 =
        none ∧
      (Matrix4.from_cols (⟨1,2,3,4⟩ : Vector4 ℚ) ⟨5,6,7,8⟩ ⟨9,10,11,12⟩ ⟨13,14,15,16⟩).col 4 =
        none :=
  ⟨rfl, rfl, rfl, rfl, rfl, rfl, rfl, rfl, rfl, rfl⟩

theorem addSV_def [Add α] (s : α) (v : Vector3 α) :
    s + v = (⟨s + v.x, s + v.y, s + v.y⟩ : Vector3 α) := rfl

theorem addVS_def [Add α] (v : Vector3 α) (s : α) :
    v + s = (⟨s + v.x, s + v.y, s + v.z⟩ : Vector3 α) := rfl

/-- C9: both orders of scalar multiplication agree componentwise, but the
two orders of scalar addition do not: `1.0 + (0,0,1)` yields `(1,1,1)`
(the z slot reads `vec.y`), while `(0,0,1) + 1.0` yields `(1,1,2)`. -/
theorem claim_C9 :
    (∀ (s : ℚ) (v : Vector3 ℚ),
        s * v = v * s ∧ s * v = (⟨s * v.x, s * v.y, s * v.z⟩ : Vector3 ℚ)) ∧
      ((1:ℚ) + (⟨0, 0, 1⟩ : Vector3 ℚ) = ⟨1, 1, 1⟩) ∧
      ((⟨0, 0, 1⟩ : Vector3 ℚ) + (1:ℚ) = ⟨1, 1, 2⟩) ∧
      ((⟨1, 1, 1⟩ : Vector3 ℚ) ≠ (⟨1, 1, 2⟩ : Vector3 ℚ)) := by
  refine ⟨fun s v => ⟨rfl, rfl⟩, ?_, ?_, ?_⟩
  · rw [addSV_def]
    norm_num
  · rw [addVS_def]
    norm_num
  · intro hc
    have := congrArg Vector3.z hc
    norm_num at this

/-- C8: the composite rotation `Rz(roll)·Ry(pitch)·Rx(yaw)` is orthonormal
(`R·Rᵀ = I`), and consequently the view matrix
`transpose(R₄)·Translation(−t)` is a two-sided inverse of the camera world
transform `Translation(t)·R₄`. -/
theorem claim_C8 (yaw pitch roll : Angle) (t : Vector3 ℝ) :
    Matrix3.rotation_matrix yaw pitch roll *
        (Matrix3.rotation_matrix yaw pitch roll).transpose = Matrix3.identity ∧
      Matrix4.view yaw pitch roll t *
        (Matrix4.translation t * Matrix4.rotation yaw pitch roll) =
          Matrix4.identity ∧
      (Matrix4.translation t * Matrix4.rotation yaw pitch roll) *
        Matrix4.view yaw pitch roll t = Matrix4.identity := by
  set R := Matrix3.rotation_matrix yaw pitch roll with hR
  refine ⟨(rot_orth yaw pitch roll).1, ?_, ?_⟩
  · show (Matrix4.to_homogenous R).transpose * Matrix4.translation (-t) *
      (Matrix4.translation t * Matrix4.to_homogenous R) = Matrix4.identity
    rw [homog_transpose]
    calc (Matrix4.to_homogenous R.transpose * Matrix4.translation (-t)) *
          (Matrix4.translation t * Matrix4.to_homogenous R)
        = Matrix4.to_homogenous R.transpose * (Matrix4.translation (-t) *
            (Matrix4.translation t * Matrix4.to_homogenous R)) := by
          rw [m4_mul_assoc (Matrix4.to_homogenous R.transpose)
            (Matrix4.translation (-t)) (Matrix4.translation t * Matrix4.to_homogenous R)]
      _ = Matrix4.to_homogenous R.transpose * ((Matrix4.translation (-t) *
            Matrix4.translation t) * Matrix4.to_homogenous R) := by
          rw [m4_mul_assoc (Matrix4.translation (-t)) (Matrix4.translation t)
            (Matrix4.to_homogenous R)]
      _ = Matrix4.to_homogenous R.transpose * Matrix4.to_homogenous R := by
          rw [(trans_mul_trans_neg t).2, m4_id_mul]
      _ = Matrix4.to_homogenous (R.transpose * R) := homog_mul _ _
      _ = Matrix4.identity := by rw [(rot_orth yaw pitch roll).2, homog_id]
  · show (Matrix4.translation t * Matrix4.to_homogenous R) *
      ((Matrix4.to_homogenous R).transpose * Matrix4.translation (-t)) = Matrix4.identity
    rw [homog_transpose]
    calc (Matrix4.translation t * Matrix4.to_homogenous R) *
          (Matrix4.to_homogenous R.transpose * Matrix4.translation (-t))
        = Matrix4.translation t * (Matrix4.to_homogenous R *
            (Matrix4.to_homogenous R.transpose * Matrix4.translation (-t))) := by
          rw [m4_mul_assoc (Matrix4.translation t) (Matrix4.to_homogenous R)
            (Matrix4.to_homogenous R.transpose * Matrix4.translation (-t))]
      _ = Matrix4.translation t * ((Matrix4.to_homogenous R *
            Matrix4.to_homogenous R.transpose) * Matrix4.translation (-t)) := by
          rw [m4_mul_assoc (Matrix4.to_homogenous R)
            (Matrix4.to_homogenous R.transpose) (Matrix4.translation (-t))]
      _ = Matrix4.translation t * (Matrix4.to_homogenous (R * R.transpose) *
            Matrix4.translation (-t)) := by rw [homog_mul]
      _ = Matrix4.translation t * Matrix4.translation (-t) := by
          rw [(rot_orth yaw pitch roll).1, homog_id, m4_id_mul]
      _ = Matrix4.identity := (trans_mul_trans_neg t).1

/-- C3: the perspective matrix maps the near/far range onto [−1, 1] (the GL
convention), not onto the [0, 1] range the rasterizer's reject test and the
source comment assume.  With fov = 90° (radians π/2), z_far = 3, z_near = 1,
aspect = 2: the view-space point (0,0,−1) sitting exactly on the near plane
lands at depth −1 (outside [0,1]) and the far-plane point (0,0,−3) at 1. -/
theorem claim_C3 :
    (Matrix4.perspective (Angle.Radians (Real.pi / 2)) 3 1 2).mulVec3 ⟨0, 0, -1⟩ =
        (⟨0, 0, -1⟩ : Vector3 ℝ) ∧
      (Matrix4.perspective (Angle.Radians (Real.pi / 2)) 3 1 2).mulVec3 ⟨0, 0, -3⟩ =
        (⟨0, 0, 1⟩ : Vector3 ℝ) ∧
      ¬(0 ≤ (-1 : ℝ)) := by
  have htan : Real.tan (Angle.toRadians (Angle.Radians (Real.pi / 2)) / 2) = 1 := by
    rw [show Angle.toRadians (Angle.Radians (Real.pi / 2)) / 2 = Real.pi / 4 by
      rw [Angle.toRadians]; ring]
    exact Real.tan_pi_div_four
  refine ⟨?_, ?_, by norm_num⟩ <;>
    · ext <;>
        simp [Matrix4.perspective, Matrix4.mulVec3, Matrix4.mulVec,
          Matrix4.from_cols, Vector4.to_homogeneous, Vector4.from_vector3,
          Vector4.cartesian, v4add_def, sv4mul_def, htan] <;>
        norm_num

/-- C10: `rasterize_triangle` never mutates a valid cell outside the clamped
bounding box: for every pixel with x outside [min_x, max_x) or y outside
[min_y, max_y), both buffers read the same value after the call as before. -/
theorem claim_C10 [Add α] [Sub α] [Mul α] [Div α] [Neg α] [FltOps α]
    (t : Triangle α) (g : Grid Char) (db : Grid α) (v : Char) (x y : Nat)
    (min_x min_y max_x max_y : Nat)
    (hbb : t.get_bounding_box = (min_x, min_y, max_x, max_y))
    (hx1 : x < g.width) (hy1 : y < g.height)
    (hx2 : x < db.width) (hy2 : y < db.height)
    (hout : ¬(min_x ≤ x ∧ x < max_x) ∨ ¬(min_y ≤ y ∧ y < max_y)) :
    (rasterize_triangle t g db v).1.get x y = g.get x y ∧
      (rasterize_triangle t g db v).2.get x y = db.get x y := by
  unfold rasterize_triangle
  rw [hbb]
  cases hz : zReject t
  · simp only [Bool.false_eq_true, if_false]
    have hmem : y ∉ List.range' min_y (max_y - min_y) ∨
        x ∉ List.range' min_x (max_x - min_x) := by
      rcases hout with h | h
      · exact Or.inr (by rw [List.mem_range'_1]; omega)
      · exact Or.inl (by rw [List.mem_range'_1]; omega)
    exact outerFold_get_other t.a t.b t.c (edge_function t.a t.b t.c) v
      (List.range' min_x (max_x - min_x)) (List.range' min_y (max_y - min_y))
      (g, db) x y hx1 hy1 hx2 hy2 hmem
  · simp

/-! ## The triangle of claim C6 -/

/-- The triangle (0,0)-(10,0)-(0,10) of spec §8, with all three z set to the
same `q`. -/
def triC6 (q : ℚ) : Triangle ℚ := ⟨⟨0, 0, q⟩, ⟨10, 0, q⟩, ⟨0, 10, q⟩⟩

theorem v3sub_def [Sub α] (a b : Vector3 α) :
    a - b = (⟨a.x - b.x, a.y - b.y, a.z - b.z⟩ : Vector3 α) := rfl

theorem v3dot_def [Add α] [Mul α] (a b : Vector3 α) :
    a.dot b = a.x * b.x + a.y * b.y + a.z * b.z := rfl

theorem sdivV3_def [Div α] (s : α) (v : Vector3 α) :
    s / v = (⟨s / v.x, s / v.y, s / v.z⟩ : Vector3 α) := rfl

theorem ratFmin (a b : ℚ) : FltOps.fmin a b = min a b := rfl

theorem ratFmax (a b : ℚ) : FltOps.fmax a b = max a b := rfl

theorem ratToUsize (q : ℚ) : FltOps.toUsize q = (⌊q⌋).toNat := rfl

theorem triC6_bb (q : ℚ) : (triC6 q).get_bounding_box = (0, 0, 10, 10) := by
  unfold Triangle.get_bounding_box triC6
  simp only [ratFmin, ratFmax, ratToUsize]
  norm_num [WIDTH, HEIGHT]
  decide

theorem triC6_zReject (q : ℚ) (h0 : 0 ≤ q) (h1 : q ≤ 1) :
    zReject (triC6 q) = false := by
  unfold zReject triC6
  simp only [ratBlt, ratOfNat]
  simp [Bool.or_eq_false_iff, decide_eq_false_iff_not, not_lt]
  norm_num [h0, h1]

theorem triC6_abc (q : ℚ) :
    edge_function (triC6 q).a (triC6 q).b (triC6 q).c = 100 := by
  unfold edge_function triC6 Vector3.dot
  simp only [v3sub_def, v3neg_def]
  norm_num

theorem triC6_inside (q : ℚ) (x y : Nat) :
    insideTest (triC6 q).a (triC6 q).b (triC6 q).c x y = decide (x + y ≤ 10) := by
  unfold insideTest triC6 edge_function Vector3.dot
  simp only [v3sub_def, v3neg_def, ratBge, ratOfNat, Nat.cast_zero]
  have e1 : ((x:ℚ) - 0) * (0 - 0) + ((y:ℚ) - 0) * -(0 - 10) + (0 - q) * (q - q) =
      10 * (y:ℚ) := by ring
  have e2 : ((x:ℚ) - 10) * (0 - 10) + ((y:ℚ) - 0) * -(10 - 0) + (0 - q) * (q - q) =
      100 - 10 * (x:ℚ) - 10 * (y:ℚ) := by ring
  have e3 : ((x:ℚ) - 0) * (10 - 0) + ((y:ℚ) - 10) * -(0 - 0) + (0 - q) * (q - q) =
      10 * (x:ℚ) := by ring
  rw [e1, e2, e3]
  have hy : decide ((0:ℚ) ≤ 10 * (y:ℚ)) = true := by
    rw [decide_eq_true_eq]; positivity
  have hx : decide ((0:ℚ) ≤ 10 * (x:ℚ)) = true := by
    rw [decide_eq_true_eq]; positivity
  rw [hy, hx]
  by_cases hc : x + y ≤ 10
  · have : decide ((0:ℚ) ≤ 100 - 10 * (x:ℚ) - 10 * (y:ℚ)) = true := by
      rw [decide_eq_true_eq]
      have : (x:ℚ) + (y:ℚ) ≤ 10 := by exact_mod_cast hc
      linarith
    rw [this, decide_eq_true hc]
    rfl
  · have : decide ((0:ℚ) ≤ 100 - 10 * (x:ℚ) - 10 * (y:ℚ)) = false := by
      rw [decide_eq_false_iff_not, not_le]
      have : (10:ℚ) < (x:ℚ) + (y:ℚ) := by exact_mod_cast Nat.lt_of_not_le hc
      linarith
    rw [this, decide_eq_false hc]
    rfl

theorem triC6_depth (q : ℚ) (x y : Nat) :
    pixelDepth (triC6 q).a (triC6 q).b (triC6 q).c
      (edge_function (triC6 q).a (triC6 q).b (triC6 q).c) x y = q := by
  rw [triC6_abc]
  unfold pixelDepth triC6 edge_function Vector3.dot
  simp only [v3sub_def, v3neg_def, sdivV3_def, ratOfNat]
  by_cases hq : q = 0
  · subst hq
    norm_num
  · field_simp
    ring_nf
    rw [sq, mul_assoc, mul_inv_cancel₀ hq, mul_one]

theorem triC6_candidate (q : ℚ) (h0 : 0 ≤ q) (h1 : q ≤ 1) (x y : Nat) :
    candidate (triC6 q) x y =
      if x < 10 ∧ y < 10 ∧ x + y ≤ 10 then some q else none := by
  rw [candidate_eq (triC6 q) x y (triC6_bb q), triC6_depth]
  by_cases hc : x < 10 ∧ y < 10 ∧ x + y ≤ 10
  · rw [if_pos ⟨triC6_zReject q h0 h1, Nat.zero_le x, hc.1, Nat.zero_le y, hc.2.1,
      by rw [triC6_inside]; exact decide_eq_true hc.2.2⟩, if_pos hc]
  · rw [if_neg ?_, if_neg hc]
    rintro ⟨-, -, h3, -, h5, h6⟩
    rw [triC6_inside] at h6
    exact hc ⟨h3, h5, of_decide_eq_true h6⟩

/-- C6 (counterexample): pixel (10,0) satisfies `x ≥ 0, y ≥ 0, x + y ≤ 10`,
so the claim says it is written, but rasterizing the spec triangle (with
z = ½ and a fresh 20×20 depth buffer at 1000) leaves it blank: the bounding
box upper bound `max_x = 10` is exclusive. -/
theorem claim_C6_counterexample :
    (rasterize_triangle (triC6 (1/2)) (Grid.new ' ' 20 20)
        (Grid.new (1000:ℚ) 20 20) '#').1.get 10 0 = some ' ' := by
  have h := rasterize_triangle_get (triC6 (1/2)) (Grid.new ' ' 20 20)
    (Grid.new (1000:ℚ) 20 20) '#' 10 0 (Grid.wf_new _ _ _) (Grid.wf_new _ _ _)
    (by norm_num [Grid.new]) (by norm_num [Grid.new])
    (by norm_num [Grid.new]) (by norm_num [Grid.new])
    1000 (Grid.get_new 1000 20 20 10 0 (by norm_num) (by norm_num))
  rw [triC6_candidate (1/2) (by norm_num) (by norm_num) 10 0,
    if_neg (by omega)] at h
  simp only [Prod.mk.injEq] at h
  rw [h.1]
  exact Grid.get_new ' ' 20 20 10 0 (by norm_num) (by norm_num)

/-- C6 (amended): rasterizing the triangle (0,0)-(10,0)-(0,10), all vertices
at depth `q` with 0 ≤ q ≤ 1 and `q` below the depth-buffer fill `D`, into a
fresh 20×20 grid writes exactly the pixels with `x < 10`, `y < 10` and
`x + y ≤ 10` — the two corner pixels (10,0) and (0,10) of the claimed set
are skipped because the bounding-box upper bounds are exclusive. -/
theorem claim_C6 (q D : ℚ) (h0 : 0 ≤ q) (h1 : q ≤ 1) (hD : q < D)
    (x y : Nat) (hx : x < 20) (hy : y < 20) :
    (rasterize_triangle (triC6 q) (Grid.new ' ' 20 20)
        (Grid.new D 20 20) '#').1.get x y =
      some (if x < 10 ∧ y < 10 ∧ x + y ≤ 10 then '#' else ' ') := by
  have h := rasterize_triangle_get (triC6 q) (Grid.new ' ' 20 20)
    (Grid.new D 20 20) '#' x y (Grid.wf_new _ _ _) (Grid.wf_new _ _ _)
    hx hy hx hy D (Grid.get_new D 20 20 x y hx hy)
  rw [triC6_candidate q h0 h1 x y] at h
  by_cases hc : x < 10 ∧ y < 10 ∧ x + y ≤ 10
  · rw [if_pos hc] at h
    have hbge : FltOps.bge q D = false := by
      rw [ratBge]
      exact decide_eq_false (not_le.mpr hD)
    simp only [hbge, Bool.false_eq_true, if_false, Prod.mk.injEq] at h
    rw [if_pos hc]
    exact h.1
  · rw [if_neg hc] at h
    simp only [Prod.mk.injEq] at h
    rw [if_neg hc, h.1]
    exact Grid.get_new ' ' 20 20 x y hx hy

theorem claim_C6_witness :
    (0 ≤ (1/2:ℚ)) ∧ ((1/2:ℚ) ≤ 1) ∧ ((1/2:ℚ) < 1000) ∧ 3 < 20 ∧ 4 < 20 ∧
      (rasterize_triangle (triC6 (1/2)) (Grid.new ' ' 20 20)
          (Grid.new (1000:ℚ) 20 20) '#').1.get 3 4 = some '#' := by
  refine ⟨by norm_num, by norm_num, by norm_num, by norm_num, by norm_num, ?_⟩
  have h := claim_C6 (1/2) 1000 (by norm_num) (by norm_num) (by norm_num)
    3 4 (by norm_num) (by norm_num)
  rw [if_pos (by omega)] at h
  exact h

/-- C4: (i) the per-pixel depth test skips the pixel whenever the stored
depth is ≤ the interpolated depth, so writes happen only on a strict
decrease; (ii) consequently the stored depth at every cell never increases
across a whole `rasterize_triangle` call; (iii) for two triangles covering a
pixel of a fresh frame at distinct depths `d1 < d2 < fill`, both submission
orders leave the nearer triangle's character and depth at that pixel. -/
theorem claim_C4 :
    (∀ (a b c : Vector3 ℚ) (abc : ℚ) (v : Char) (st : Grid Char × Grid ℚ)
        (x y : Nat) (prev : ℚ),
        st.2.get x y = some prev →
        prev ≤ pixelDepth a b c abc x y →
        rasterPixel a b c abc v st x y = st) ∧
      (∀ (t : Triangle ℚ) (g : Grid Char) (db : Grid ℚ) (v : Char) (x y : Nat),
        depthLe ((rasterize_triangle t g db v).2.get x y) (db.get x y)) ∧
      (∀ (w h : Nat) (ch0 : Char) (D : ℚ) (v1 v2 : Char) (t1 t2 : Triangle ℚ)
        (x y : Nat) (d1 d2 : ℚ),
        x < w → y < h →
        candidate t1 x y = some d1 → candidate t2 x y = some d2 →
        d1 < d2 → d2 < D →
        ((rasterize_triangle t2
            (rasterize_triangle t1 (Grid.new ch0 w h) (Grid.new D w h) v1).1
            (rasterize_triangle t1 (Grid.new ch0 w h) (Grid.new D w h) v1).2
            v2).1.get x y = some v1 ∧
         (rasterize_triangle t2
            (rasterize_triangle t1 (Grid.new ch0 w h) (Grid.new D w h) v1).1
            (rasterize_triangle t1 (Grid.new ch0 w h) (Grid.new D w h) v1).2
            v2).2.get x y = some d1 ∧
         (rasterize_triangle t1
            (rasterize_triangle t2 (Grid.new ch0 w h) (Grid.new D w h) v2).1
            (rasterize_triangle t2 (Grid.new ch0 w h) (Grid.new D w h) v2).2
            v1).1.get x y = some v1 ∧
         (rasterize_triangle t1
            (rasterize_triangle t2 (Grid.new ch0 w h) (Grid.new D w h) v2).1
            (rasterize_triangle t2 (Grid.new ch0 w h) (Grid.new D w h) v2).2
            v1).2.get x y = some d1)) := by
  refine ⟨?_, ?_, ?_⟩
  · intro a b c abc v st x y prev hprev hle
    unfold rasterPixel
    cases hins : insideTest a b c x y
    · simp
    · have hbge : FltOps.bge (pixelDepth a b c abc x y) prev = true := by
        rw [ratBge]; exact decide_eq_true hle
      simp [hprev, hbge]
  · intro t g db v x y
    exact rasterize_triangle_depthLe t g db v x y
  · intro w h ch0 D v1 v2 t1 t2 x y d1 d2 hx hy hc1 hc2 h12 h2D
    have h1D : d1 < D := h12.trans h2D
    have hwfg : (Grid.new ch0 w h).WF := Grid.wf_new _ _ _
    have hwfd : (Grid.new D w h).WF := Grid.wf_new _ _ _
    -- first order: t1 then t2
    have ha := rasterize_triangle_get t1 (Grid.new ch0 w h) (Grid.new D w h) v1
      x y hwfg hwfd hx hy hx hy D (Grid.get_new D w h x y hx hy)
    rw [hc1] at ha
    have hb1 : FltOps.bge d1 D = false := by
      rw [ratBge]; exact decide_eq_false (not_le.mpr h1D)
    simp only [hb1, Bool.false_eq_true, if_false, Prod.mk.injEq] at ha
    have hg1 := rasterize_triangle_gdims t1 (Grid.new ch0 w h) (Grid.new D w h) v1
    obtain ⟨hw1, hh1, _⟩ := gdims_spec hg1.1
    obtain ⟨hw2, hh2, _⟩ := gdims_spec hg1.2
    have ha2 := rasterize_triangle_get t2
      (rasterize_triangle t1 (Grid.new ch0 w h) (Grid.new D w h) v1).1
      (rasterize_triangle t1 (Grid.new ch0 w h) (Grid.new D w h) v1).2 v2
      x y (wf_of_gdims_eq hg1.1 hwfg) (wf_of_gdims_eq hg1.2 hwfd)
      (hw1.symm ▸ hx) (hh1.symm ▸ hy) (hw2.symm ▸ hx) (hh2.symm ▸ hy)
      d1 ha.2
    rw [hc2] at ha2
    have hb21 : FltOps.bge d2 d1 = true := by
      rw [ratBge]; exact decide_eq_true h12.le
    simp only [hb21, if_true, Prod.mk.injEq] at ha2
    -- second order: t2 then t1
    have hb := rasterize_triangle_get t2 (Grid.new ch0 w h) (Grid.new D w h) v2
      x y hwfg hwfd hx hy hx hy D (Grid.get_new D w h x y hx hy)
    rw [hc2] at hb
    have hb2 : FltOps.bge d2 D = false := by
      rw [ratBge]; exact decide_eq_false (not_le.mpr h2D)
    simp only [hb2, Bool.false_eq_true, if_false, Prod.mk.injEq] at hb
    have hg2 := rasterize_triangle_gdims t2 (Grid.new ch0 w h) (Grid.new D w h) v2
    obtain ⟨hw1', hh1', _⟩ := gdims_spec hg2.1
    obtain ⟨hw2', hh2', _⟩ := gdims_spec hg2.2
    have hb2' := rasterize_triangle_get t1
      (rasterize_triangle t2 (Grid.new ch0 w h) (Grid.new D w h) v2).1
      (rasterize_triangle t2 (Grid.new ch0 w h) (Grid.new D w h) v2).2 v1
      x y (wf_of_gdims_eq hg2.1 hwfg) (wf_of_gdims_eq hg2.2 hwfd)
      (hw1'.symm ▸ hx) (hh1'.symm ▸ hy) (hw2'.symm ▸ hx) (hh2'.symm ▸ hy)
      d2 hb.2
    rw [hc1] at hb2'
    have hb12 : FltOps.bge d1 d2 = false := by
      rw [ratBge]; exact decide_eq_false (not_le.mpr h12)
    simp only [hb12, Bool.false_eq_true, if_false, Prod.mk.injEq] at hb2'
    exact ⟨ha2.1.trans ha.1, ha2.2, hb2'.1, hb2'.2⟩

theorem claim_C4_witness :
    ((Grid.new (0:ℚ) 4 4).get 0 0 = some 0) ∧
      ((0:ℚ) ≤ pixelDepth (triC6 (1/2)).a (triC6 (1/2)).b (triC6 (1/2)).c
        (edge_function (triC6 (1/2)).a (triC6 (1/2)).b (triC6 (1/2)).c) 0 0) ∧
      rasterPixel (triC6 (1/2)).a (triC6 (1/2)).b (triC6 (1/2)).c
          (edge_function (triC6 (1/2)).a (triC6 (1/2)).b (triC6 (1/2)).c) '#'
          (Grid.new ' ' 4 4, Grid.new (0:ℚ) 4 4) 0 0 =
        (Grid.new ' ' 4 4, Grid.new (0:ℚ) 4 4) ∧
      depthLe ((rasterize_triangle (triC6 (1/2)) (Grid.new ' ' 4 4)
          (Grid.new (0:ℚ) 4 4) '#').2.get 1 1) ((Grid.new (0:ℚ) 4 4).get 1 1) ∧
      (candidate (triC6 (1/4)) 2 2 = some (1/4)) ∧
      (candidate (triC6 (1/2)) 2 2 = some (1/2)) ∧
      ((1/4:ℚ) < 1/2) ∧ ((1/2:ℚ) < 1000) ∧ 2 < 12 ∧
      (rasterize_triangle (triC6 (1/2))
          (rasterize_triangle (triC6 (1/4)) (Grid.new 'a' 12 12)
            (Grid.new (1000:ℚ) 12 12) 'x').1
          (rasterize_triangle (triC6 (1/4)) (Grid.new 'a' 12 12)
            (Grid.new (1000:ℚ) 12 12) 'x').2
          'z').1.get 2 2 = some 'x' := by
  have hget : (Grid.new (0:ℚ) 4 4).get 0 0 = some 0 :=
    Grid.get_new 0 4 4 0 0 (by norm_num) (by norm_num)
  have hdp : (0:ℚ) ≤ pixelDepth (triC6 (1/2)).a (triC6 (1/2)).b (triC6 (1/2)).c
      (edge_function (triC6 (1/2)).a (triC6 (1/2)).b (triC6 (1/2)).c) 0 0 := by
    rw [triC6_depth]; norm_num
  refine ⟨hget, hdp, ?_, ?_, ?_, ?_, by norm_num, by norm_num, by norm_num, ?_⟩
  · exact claim_C4.1 (triC6 (1/2)).a (triC6 (1/2)).b (triC6 (1/2)).c _ '#'
      (Grid.new ' ' 4 4, Grid.new (0:ℚ) 4 4) 0 0 0 hget hdp
  · exact claim_C4.2.1 (triC6 (1/2)) (Grid.new ' ' 4 4) (Grid.new (0:ℚ) 4 4) '#' 1 1
  · rw [triC6_candidate (1/4) (by norm_num) (by norm_num) 2 2, if_pos (by omega)]
  · rw [triC6_candidate (1/2) (by norm_num) (by norm_num) 2 2, if_pos (by omega)]
  · have h := claim_C4.2.2 12 12 'a' 1000 'x' 'z' (triC6 (1/4)) (triC6 (1/2)) 2 2
      (1/4) (1/2) (by norm_num) (by norm_num)
      (by rw [triC6_candidate (1/4) (by norm_num) (by norm_num) 2 2,
        if_pos (by omega)])
      (by rw [triC6_candidate (1/2) (by norm_num) (by norm_num) 2 2,
        if_pos (by omega)])
      (by norm_num) (by norm_num)
    exact h.1

/-! ## Claim C2: a collinear triangle poisons the depth buffer -/

theorem feAddFin (a b : ℚ) : FExt.fin a + FExt.fin b = FExt.fin (a + b) := rfl

theorem feSubFin (a b : ℚ) : FExt.fin a - FExt.fin b = FExt.fin (a - b) := by
  show FExt.fin (a + -b) = FExt.fin (a - b)
  rw [← sub_eq_add_neg]

theorem feMulFin (a b : ℚ) : FExt.fin a * FExt.fin b = FExt.fin (a * b) := rfl

theorem feNegFin (a : ℚ) : -FExt.fin a = FExt.fin (-a) := rfl

theorem feDivFin (a b : ℚ) :
    FExt.fin a / FExt.fin b =
      if b = 0 then (if a = 0 then FExt.nan else if 0 < a then FExt.inf else FExt.ninf)
      else FExt.fin (a / b) := rfl

theorem feMulFinNan (a : ℚ) : FExt.fin a * FExt.nan = FExt.nan := rfl

theorem feAddNanL (x : FExt) : FExt.nan + x = FExt.nan := by cases x <;> rfl

theorem feAddNanR (x : FExt) : x + FExt.nan = FExt.nan := by cases x <;> rfl

theorem feDivNanR (x : FExt) : x / FExt.nan = FExt.nan := by cases x <;> rfl

theorem feOfNat (n : Nat) : (FltOps.ofNat n : FExt) = FExt.fin n := rfl

theorem feBgeFin (a b : ℚ) :
    FltOps.bge (FExt.fin a) (FExt.fin b) = decide (b ≤ a) := rfl

theorem feBgeNanInf : FltOps.bge FExt.nan FExt.inf = false := rfl

theorem feBltFin (a b : ℚ) :
    FltOps.blt (FExt.fin a) (FExt.fin b) = decide (a < b) := rfl

theorem feFminFin (a b : ℚ) :
    FltOps.fmin (FExt.fin a) (FExt.fin b) =
      if FExt.blt (FExt.fin b) (FExt.fin a) then FExt.fin b else FExt.fin a := rfl

theorem feFmaxFin (a b : ℚ) :
    FltOps.fmax (FExt.fin a) (FExt.fin b) =
      if FExt.blt (FExt.fin a) (FExt.fin b) then FExt.fin b else FExt.fin a := rfl

theorem feBltFin' (a b : ℚ) : FExt.blt (FExt.fin a) (FExt.fin b) = decide (a < b) := rfl

theorem feToUsizeFin (q : ℚ) : FltOps.toUsize (FExt.fin q) = (⌊q⌋).toNat := rfl

/-- The degenerate (zero-area) triangle of claim C2: three collinear points
on the diagonal, all at depth 1 (inside the accepted z range). -/
def triC2 : Triangle FExt :=
  ⟨⟨.fin 0, .fin 0, .fin 1⟩, ⟨.fin 1, .fin 1, .fin 1⟩, ⟨.fin 2, .fin 2, .fin 1⟩⟩

theorem triC2_bb : triC2.get_bounding_box = (0, 0, 2, 2) := by
  unfold Triangle.get_bounding_box triC2
  norm_num [feFminFin, feFmaxFin, feBltFin', feToUsizeFin, WIDTH, HEIGHT]
  decide

theorem triC2_zReject : zReject triC2 = false := by
  unfold zReject triC2
  norm_num [feBltFin, feOfNat, ratBlt]

theorem triC2_abc : edge_function triC2.a triC2.b triC2.c = FExt.fin 0 := by
  unfold edge_function triC2 Vector3.dot
  simp only [v3sub_def, v3neg_def, feSubFin, feNegFin, feMulFin, feAddFin]
  norm_num

theorem triC2_inside : insideTest triC2.a triC2.b triC2.c 0 0 = true := by
  unfold insideTest triC2 edge_function Vector3.dot
  simp only [v3sub_def, v3neg_def, feSubFin, feNegFin, feMulFin, feAddFin,
    feOfNat, feBgeFin, Nat.cast_zero]
  norm_num

theorem triC2_depth :
    pixelDepth triC2.a triC2.b triC2.c (edge_function triC2.a triC2.b triC2.c)
      0 0 = FExt.nan := by
  rw [triC2_abc]
  unfold pixelDepth triC2 edge_function Vector3.dot
  simp only [v3sub_def, v3neg_def, sdivV3_def, feSubFin, feNegFin, feMulFin,
    feAddFin, feDivFin, feOfNat, Nat.cast_zero]
  norm_num [feMulFinNan, feAddNanR, feDivNanR]

theorem triC2_candidate : candidate triC2 0 0 = some FExt.nan := by
  rw [candidate_eq triC2 0 0 triC2_bb, triC2_depth,
    if_pos ⟨triC2_zReject, Nat.le_refl 0, by norm_num, Nat.le_refl 0, by norm_num,
      triC2_inside⟩]

/-- C2: rasterizing the collinear (zero-area) triangle `triC2` — doubled
signed area exactly 0 — into fresh 12×12 buffers is **not** skipped: the
pixel (0,0) passes the containment test with all edge values 0, the
barycentric division 0/0 produces NaN, the NaN depth passes the `>=` test
against +∞ (IEEE comparisons with NaN are false), and NaN is written to the
depth buffer together with a character write.  The claim requires zero
writes and a NaN-free depth buffer. -/
theorem claim_C2 :
    edge_function triC2.a triC2.b triC2.c = FExt.fin 0 ∧
      (rasterize_triangle triC2 (Grid.new ' ' 12 12)
          (Grid.new FExt.inf 12 12) '#').2.get 0 0 = some FExt.nan ∧
      (rasterize_triangle triC2 (Grid.new ' ' 12 12)
          (Grid.new FExt.inf 12 12) '#').1.get 0 0 = some '#' := by
  have h := rasterize_triangle_get triC2 (Grid.new ' ' 12 12)
    (Grid.new FExt.inf 12 12) '#' 0 0 (Grid.wf_new _ _ _) (Grid.wf_new _ _ _)
    (by norm_num [Grid.new]) (by norm_num [Grid.new])
    (by norm_num [Grid.new]) (by norm_num [Grid.new])
    FExt.inf (Grid.get_new FExt.inf 12 12 0 0 (by norm_num) (by norm_num))
  rw [triC2_candidate] at h
  simp only [feBgeNanInf, Bool.false_eq_true, if_false, Prod.mk.injEq] at h
  exact ⟨triC2_abc, h.2, h.1⟩

theorem claim_C10_witness :
    (triC6 (1/2)).get_bounding_box = (0, 0, 10, 10) ∧
      15 < 20 ∧ 3 < 20 ∧ ¬(0 ≤ 15 ∧ 15 < 10) ∧
      (rasterize_triangle (triC6 (1/2)) (Grid.new ' ' 20 20)
          (Grid.new (1000:ℚ) 20 20) '#').1.get 15 3 =
        (Grid.new ' ' 20 20).get 15 3 ∧
      (rasterize_triangle (triC6 (1/2)) (Grid.new ' ' 20 20)
          (Grid.new (1000:ℚ) 20 20) '#').2.get 15 3 =
        (Grid.new (1000:ℚ) 20 20).get 15 3 := by
  have h := claim_C10 (triC6 (1/2)) (Grid.new ' ' 20 20) (Grid.new (1000:ℚ) 20 20)
    '#' 15 3 0 0 10 10 (triC6_bb (1/2)) (by norm_num [Grid.new])
    (by norm_num [Grid.new]) (by norm_num [Grid.new]) (by norm_num [Grid.new])
    (Or.inl (by omega))
  exact ⟨triC6_bb (1/2), by norm_num, by norm_num, by omega, h.1, h.2⟩

end TRend
